import Mathlib

/-!
Verification development for the scan-pipeline orchestrator repository.

The repository contains two coexisting implementations of the pipeline
(`performScan`): the variant in `src/unnamed/part_000` (called variant 1 /
`V1` below) and the variant in `src/server/scanner.ts` (variant 2 / `V2`).
Both are embedded here, together with the duplicate resolver, the ZAP alert
converter (`src/server/zap-client.ts`), and the recurrence arithmetic of the
scheduler (`src/unnamed/part_004`).

Modelling conventions:
* JavaScript numbers are modelled as exact naturals/rationals
  (progress values and similarity scores are derived from integer data, and
  no claim depends on binary floating-point artifacts).
* JavaScript `||`-defaulting on strings is modelled with `""` playing the
  role of the falsy absent/empty value, or with `Option` where the source
  distinguishes `undefined` from `""`.
* Wall-clock time is irrelevant to every claim (`durationMs` only spaces the
  writes out in time); only the order of observable operations is modelled.
* The persistence collaborator (`storage`) is modelled as an event trace.
-/

/-- Severity tiers used across the system (schema `severity` values). -/
inductive Sev
  | critical
  | high
  | medium
  | low
  | info
deriving DecidableEq, Repr

/-- Scan status values (schema `status` values). -/
inductive ScanStatus
  | pending
  | running
  | completed
  | cancelled
  | failed
deriving DecidableEq, Repr

/-- One candidate finding (`InsertVulnerability` without the constant
`scanId`).  `details` carries opaque string payloads; the tool-assigned
plugin identity that the duplicate resolver inspects
(`(vuln.details as any).pluginId`) is modelled as the separate field
`pluginId` (`none` when `details` is absent or carries no `pluginId`). -/
structure Vuln where
  type : String
  severity : Sev
  title : String
  description : String
  affectedUrl : String
  details : Option String
  remediation : String
  pluginId : Option String
deriving DecidableEq, Repr

/-! ## Levenshtein distance

`calculateStringSimilarity` (src/unnamed/part_000, lines 61-94) builds the
classic `(len2+1) x (len1+1)` dynamic-programming matrix with
`matrix[i][j] = min(matrix[i][j-1]+1, matrix[i-1][j]+1, matrix[i-1][j-1]+cost)`
and reads off `matrix[len2][len1]`.  We embed that matrix computation
(`levMatrix` below, rows built left to right exactly as the source does) and
separately define the textbook structural recurrence `lev`; the two are
proved equal, so the claims' formula `1 - lev/maxLen` can be stated against
the mathematical edit distance. -/

/-- Textbook Levenshtein recurrence (the specification-side distance). -/
def lev : List Char → List Char → Nat
  | [], t => t.length
  | a :: s, [] => (a :: s).length
  | a :: s, b :: t =>
      min (min (lev s (b :: t) + 1) (lev (a :: s) t + 1))
        (lev s t + (if a = b then 0 else 1))

@[simp] theorem lev_nil_left (t : List Char) : lev [] t = t.length := by
  simp [lev]

@[simp] theorem lev_nil_right (s : List Char) : lev s [] = s.length := by
  cases s <;> simp [lev]

theorem lev_cons_cons (a b : Char) (s t : List Char) :
    lev (a :: s) (b :: t) =
      min (min (lev s (b :: t) + 1) (lev (a :: s) t + 1))
        (lev s t + (if a = b then 0 else 1)) := by
  simp [lev]

/-- Distance is at least the length difference. -/
theorem lev_ge_length_sub :
    ∀ s t : List Char, s.length - t.length ≤ lev s t ∧ t.length - s.length ≤ lev s t := by
  intro s
  induction s with
  | nil => intro t; simp
  | cons a s ih =>
    intro t
    induction t with
    | nil => simp
    | cons b t iht =>
      have h1 := ih (b :: t)
      have h2 := iht
      have h3 := ih t
      rw [lev_cons_cons]
      simp only [List.length_cons] at *
      constructor <;> omega

/-- Distance is at most the larger length. -/
theorem lev_le_max : ∀ s t : List Char, lev s t ≤ max s.length t.length := by
  intro s
  induction s with
  | nil => intro t; simp
  | cons a s ih =>
    intro t
    induction t with
    | nil => simp
    | cons b t iht =>
      have h3 := ih t
      rw [lev_cons_cons]
      have hc : (if a = b then 0 else 1) ≤ 1 := by split <;> omega
      simp only [List.length_cons] at *
      omega

set_option maxHeartbeats 1600000 in
/-- The "snoc" recurrence: peeling the last character of each string obeys
the same three-way minimum as the structural (first-character) recurrence.
This is what the source's row-by-row matrix computation uses. -/
theorem lev_snoc (x y : Char) :
    ∀ s t : List Char,
      lev (s ++ [x]) (t ++ [y]) =
        min (min (lev s (t ++ [y]) + 1) (lev (s ++ [x]) t + 1))
          (lev s t + (if x = y then 0 else 1)) := by
  intro s
  induction s with
  | nil =>
    intro t
    induction t with
    | nil =>
      simp only [List.nil_append]
      exact lev_cons_cons x y [] []
    | cons b t iht =>
      simp only [List.nil_append, List.cons_append] at *
      rw [lev_cons_cons x b [] (t ++ [y]), iht,
        lev_cons_cons x b [] t]
      simp only [lev_nil_left, List.length_append, List.length_cons,
        List.length_nil]
      omega
  | cons a s ih =>
    intro t
    induction t with
    | nil =>
      simp only [List.nil_append, List.cons_append] at *
      have h1 := ih ([] : List Char)
      simp only [List.nil_append] at h1
      rw [lev_cons_cons a y (s ++ [x]) [], h1,
        lev_cons_cons a y s []]
      simp only [lev_nil_right, List.length_append, List.length_cons,
        List.length_nil]
      omega
    | cons b t iht =>
      simp only [List.cons_append] at *
      have h1 := ih (b :: t)
      simp only [List.cons_append] at h1
      rw [lev_cons_cons a b (s ++ [x]) (t ++ [y]), h1, iht, ih t,
        lev_cons_cons a b s (t ++ [y]), lev_cons_cons a b (s ++ [x]) t,
        lev_cons_cons a b s t]
      generalize (if a = b then 0 else 1) = cab
      generalize (if x = y then 0 else 1) = cxy
      generalize lev s (b :: (t ++ [y])) = A1
      generalize lev (s ++ [x]) (b :: t) = A2
      generalize lev s (b :: t) = A3
      generalize lev (a :: s) (t ++ [y]) = A4
      generalize lev (a :: (s ++ [x])) t = A5
      generalize lev (a :: s) t = A6
      generalize lev s (t ++ [y]) = A7
      generalize lev (s ++ [x]) t = A8
      generalize lev s t = A9
      simp only [← min_add_add_right]
      ac_rfl

/-- Edit distances of all prefixes of `pre ++ cs` (extending `pre`) against
the second string `p`: the segment of a DP row from column `pre.length` on. -/
def prefRow (p pre : List Char) : List Char → List Nat
  | [] => [lev pre p]
  | c :: cs => lev pre p :: prefRow p (pre ++ [c]) cs

theorem prefRow_headD (p pre : List Char) (cs : List Char) :
    (prefRow p pre cs).headD 0 = lev pre p := by
  cases cs <;> rfl

theorem prefRow_cons (p pre : List Char) (cs : List Char) :
    prefRow p pre cs = lev pre p :: (prefRow p pre cs).tail := by
  cases cs <;> rfl

theorem prefRow_getLastD (p : List Char) :
    ∀ (cs pre : List Char), (prefRow p pre cs).getLastD 0 = lev (pre ++ cs) p := by
  intro cs
  induction cs with
  | nil => intro pre; simp [prefRow]
  | cons c cs ih =>
    intro pre
    rw [prefRow, List.getLastD_cons]
    · rcases cs <;> simp only [prefRow] at *
      · simpa using ih (pre ++ [c])
      · simpa [List.append_assoc] using ih (pre ++ [c])

/-- Inner loop of the source's row fill
(`matrix[i][j] = min(matrix[i][j-1] + 1, matrix[i-1][j] + 1,
matrix[i-1][j-1] + cost)`), walking the first string left to right with
`left = matrix[i][j-1]`, `prevRest = matrix[i-1][j-1..]`. -/
def levNextAux (b : Char) : List Char → List Nat → Nat → List Nat
  | [], _, _ => []
  | c :: cs, prevRest, left =>
      let diag := prevRest.headD 0
      let rest := prevRest.tail
      let up := rest.headD 0
      let v := min (min (left + 1) (up + 1)) (diag + (if c = b then 0 else 1))
      v :: levNextAux b cs rest v

/-- Row `i` of the source's matrix from row `i-1`; the row is seeded with
`matrix[i][0] = i` (the `matrix[i] = [i]` initialisation). -/
def levNextRow (s1 : List Char) (b : Char) (prev : List Nat) : List Nat :=
  let i := prev.headD 0 + 1
  i :: levNextAux b s1 prev i

/-- The bottom-right entry `matrix[len2][len1]` of the source's DP matrix:
row `0` is `[0, 1, ..., len1]`, each further row is produced by
`levNextRow`, one per character of the second string. -/
def levMatrix (s1 s2 : List Char) : Nat :=
  (s2.foldl (fun prev b => levNextRow s1 b prev) (List.range (s1.length + 1))).getLastD 0

theorem levNextAux_spec (b : Char) (p : List Char) :
    ∀ (cs pre : List Char),
      levNextAux b cs (prefRow p pre cs) (lev pre (p ++ [b])) =
        (prefRow (p ++ [b]) pre cs).tail := by
  intro cs
  induction cs with
  | nil => intro pre; rfl
  | cons c cs ih =>
    intro pre
    rw [prefRow, levNextAux]
    simp only [List.headD_cons, List.tail_cons]
    rw [prefRow_headD, ← lev_snoc c b pre p, ih (pre ++ [c])]
    rw [prefRow_cons (p ++ [b]) pre (c :: cs)]
    simp only [List.tail_cons]
    exact (prefRow_cons (p ++ [b]) (pre ++ [c]) cs).symm

theorem levNextRow_spec (s1 : List Char) (b : Char) (p : List Char) :
    levNextRow s1 b (prefRow p [] s1) = prefRow (p ++ [b]) [] s1 := by
  rw [levNextRow, prefRow_headD]
  simp only [lev_nil_left]
  have hleft : p.length + 1 = lev [] (p ++ [b]) := by simp
  rw [hleft, levNextAux_spec b p s1 []]
  exact (prefRow_cons (p ++ [b]) [] s1).symm

theorem prefRow_nil_eq_range :
    ∀ (cs pre : List Char), prefRow [] pre cs = List.range' pre.length (cs.length + 1) := by
  intro cs
  induction cs with
  | nil => intro pre; simp [prefRow, List.range']
  | cons c cs ih =>
    intro pre
    rw [prefRow, ih (pre ++ [c])]
    simp [List.range', List.range'_succ]

theorem levFold_spec (s1 : List Char) :
    ∀ (rest p : List Char),
      rest.foldl (fun prev b => levNextRow s1 b prev) (prefRow p [] s1) =
        prefRow (p ++ rest) [] s1 := by
  intro rest
  induction rest with
  | nil => intro p; simp
  | cons b rest ih =>
    intro p
    rw [List.foldl_cons, levNextRow_spec s1 b p, ih (p ++ [b])]
    simp [List.append_assoc]

/-- The source's DP matrix computes the Levenshtein distance. -/
theorem levMatrix_eq_lev (s1 s2 : List Char) : levMatrix s1 s2 = lev s1 s2 := by
  rw [levMatrix]
  have hinit : List.range (s1.length + 1) = prefRow [] [] s1 := by
    rw [prefRow_nil_eq_range s1 [], List.range_eq_range']
    rfl
  rw [hinit]
  have := levFold_spec s1 s2 []
  simp only [List.nil_append] at this
  rw [this, prefRow_getLastD]
  simp

/-- `str.toLowerCase().trim()` on the character sequence (ASCII lowering,
whitespace trimmed from both ends). -/
def normChars (l : List Char) : List Char :=
  (((l.map Char.toLower).dropWhile Char.isWhitespace).reverse.dropWhile
    Char.isWhitespace).reverse

/-- `calculateStringSimilarity` (src/unnamed/part_000, lines 61-94):
guard on falsy (empty) inputs, normalize, early-out on equality, otherwise
`1 - distance / maxLen` with `distance` from the DP matrix. -/
def calculateStringSimilarity (str1 str2 : String) : ℚ :=
  if str1 = "" ∨ str2 = "" then 0
  else if normChars str1.toList = normChars str2.toList then 1
  else
    1 - (levMatrix (normChars str1.toList) (normChars str2.toList) : ℚ) /
        ((max (normChars str1.toList).length (normChars str2.toList).length : ℕ) : ℚ)

theorem lev_self : ∀ l : List Char, lev l l = 0 := by
  intro l
  induction l with
  | nil => simp
  | cons a l ih =>
    rw [lev_cons_cons]
    simp [ih]

/-- Evaluation form of the similarity on non-empty inputs with distinct
normalizations, with the DP already replaced by the distance. -/
theorem sim_eval (s t : String) (hs : ¬ s = "") (ht : ¬ t = "")
    (hne : ¬ normChars s.toList = normChars t.toList) :
    calculateStringSimilarity s t =
      1 - (lev (normChars s.toList) (normChars t.toList) : ℚ) /
          ((max (normChars s.toList).length (normChars t.toList).length : ℕ) : ℚ) := by
  unfold calculateStringSimilarity
  rw [if_neg (by tauto), if_neg hne, levMatrix_eq_lev]

/-- Numeric evaluation helper: discharge the distance and length values
separately (they are decidable `Nat` facts) and read off the score. -/
theorem sim_eval_num (s t : String) (d m : ℕ) (hs : ¬ s = "") (ht : ¬ t = "")
    (hne : ¬ normChars s.toList = normChars t.toList)
    (hd : lev (normChars s.toList) (normChars t.toList) = d)
    (hm : max (normChars s.toList).length (normChars t.toList).length = m) :
    calculateStringSimilarity s t = 1 - (d : ℚ) / (m : ℚ) := by
  rw [sim_eval s t hs ht hne, hd, hm]

theorem sim_nonneg_le_one (s t : String) :
    0 ≤ calculateStringSimilarity s t ∧ calculateStringSimilarity s t ≤ 1 := by
  unfold calculateStringSimilarity
  by_cases h0 : s = "" ∨ t = ""
  · rw [if_pos h0]; norm_num
  · rw [if_neg h0]
    by_cases hne : normChars s.toList = normChars t.toList
    · rw [if_pos hne]; norm_num
    · rw [if_neg hne]
      rw [levMatrix_eq_lev, Nat.cast_max]
      have hd := lev_le_max (normChars s.toList) (normChars t.toList)
      have hm : 1 ≤ max (normChars s.toList).length (normChars t.toList).length := by
        rcases Nat.eq_zero_or_pos
            (max (normChars s.toList).length (normChars t.toList).length) with h0 | h1
        · exfalso
          apply hne
          have h1 : (normChars s.toList).length = 0 := by omega
          have h2 : (normChars t.toList).length = 0 := by omega
          rw [List.length_eq_zero] at h1 h2
          rw [h1, h2]
        · exact h1
      have hmq : (0 : ℚ) < (max (normChars s.toList).length (normChars t.toList).length : ℚ) := by
        exact_mod_cast hm
      have hdiv1 : (lev (normChars s.toList) (normChars t.toList) : ℚ) /
          (max (normChars s.toList).length (normChars t.toList).length : ℚ) ≤ 1 := by
        rw [div_le_one hmq]
        exact_mod_cast hd
      have hdiv0 : (0 : ℚ) ≤ (lev (normChars s.toList) (normChars t.toList) : ℚ) /
          (max (normChars s.toList).length (normChars t.toList).length : ℚ) := by
        positivity
      constructor <;> linarith

/-! ## Duplicate resolver (src/unnamed/part_000, lines 99-166) -/

/-- `(vuln.details && (vuln.details as any).pluginId) || null`: the plugin
identity is `null` unless present and truthy (non-empty). -/
def vulnPluginKey (v : Vuln) : Option String :=
  match v.pluginId with
  | none => none
  | some s => if s = "" then none else some s

/-- `areDuplicateVulnerabilities(vuln1, vuln2)`: URL similarity is computed
first; a shared truthy plugin identity short-circuits to `true`; then the
0.8 URL gate, 0.6 title gate, and equality of severity and type. -/
def areDuplicateVulnerabilities (v1 v2 : Vuln) : Bool :=
  if (match vulnPluginKey v1, vulnPluginKey v2 with
      | some p1, some p2 => p1 == p2
      | _, _ => false) then true
  else if calculateStringSimilarity v1.affectedUrl v2.affectedUrl < (4 : ℚ)/5 then
    false
  else if calculateStringSimilarity v1.title v2.title < (3 : ℚ)/5 then false
  else if ¬ v1.severity = v2.severity then false
  else if ¬ v1.type = v2.type then false
  else true

/-- First-match bump of the per-original duplicate counter list
(`duplicateInfo.find(...)` followed by increment-or-push). -/
def bumpDup : List (String × Nat) → String → List (String × Nat)
  | [], t => [(t, 1)]
  | (s, n) :: rest, t =>
      if s = t then (s, n + 1) :: rest else (s, n) :: bumpDup rest t

/-- One iteration of `deduplicateVulnerabilities`' outer loop: compare the
incoming finding against the already-accepted ones in insertion order. -/
def dedupStep (acc : List Vuln × Nat × List (String × Nat)) (v : Vuln) :
    List Vuln × Nat × List (String × Nat) :=
  match acc.1.find? (fun w => areDuplicateVulnerabilities v w) with
  | none => (acc.1 ++ [v], acc.2.1, acc.2.2)
  | some w =>
      (acc.1, acc.2.1 + 1, bumpDup acc.2.2 (if w.title = "" then "Unknown" else w.title))

/-- `deduplicateVulnerabilities`: linear pass, first match wins. -/
def deduplicateVulnerabilities (l : List Vuln) :
    List Vuln × Nat × List (String × Nat) :=
  l.foldl dedupStep ([], 0, [])

/-! ## ZAP alert conversion (src/server/zap-client.ts, lines 320-361) -/

/-- A ZAP alert as consumed by `convertAlertsToVulnerabilities`; string
fields use `""` for a missing (falsy) value, matching the `||` chains. -/
structure ZapAlert where
  pluginId : String
  pluginName : String
  alertName : String
  name : String
  description : String
  solution : String
  riskCode : String
  riskcode : String
  risk : String
  url : String
deriving DecidableEq, Repr

/-- JavaScript `a || b` on strings. -/
def jsOr (a b : String) : String := if a = "" then b else a

/-- The fixed `riskMap` lookup table. -/
def riskMap (k : String) : Option Sev :=
  if k = "3" then some Sev.high
  else if k = "High" then some Sev.high
  else if k = "2" then some Sev.medium
  else if k = "Medium" then some Sev.medium
  else if k = "1" then some Sev.low
  else if k = "Low" then some Sev.low
  else if k = "0" then some Sev.low
  else if k = "Informational" then some Sev.low
  else none

/-- `convertAlertsToVulnerabilities`: best risk indicator through the `||`
chain, mapped through `riskMap` with default `"low"`; the produced
vulnerability's `details` carries the alert's `pluginId`. -/
def convertAlertsToVulnerabilities (alerts : List ZapAlert) : List Vuln :=
  alerts.map (fun alert =>
    let riskKey := jsOr alert.riskCode (jsOr alert.riskcode (jsOr alert.risk "0"))
    let severity := (riskMap riskKey).getD Sev.low
    let name := jsOr alert.alertName (jsOr alert.name
      (jsOr alert.pluginName "Unknown Vulnerability"))
    { type := jsOr alert.pluginName name
      severity := severity
      title := name
      description := jsOr alert.description "No description provided"
      affectedUrl := alert.url
      details := none
      remediation := jsOr alert.solution "No solution provided"
      pluginId := some alert.pluginId })

/-- Severity counters of a list of findings (the `switch` accumulation). -/
structure Counts where
  critical : Nat
  high : Nat
  medium : Nat
  low : Nat
  info : Nat
deriving DecidableEq, Repr

def countsOf (l : List Vuln) : Counts :=
  l.foldl (fun c v =>
    match v.severity with
    | Sev.critical => { c with critical := c.critical + 1 }
    | Sev.high => { c with high := c.high + 1 }
    | Sev.medium => { c with medium := c.medium + 1 }
    | Sev.low => { c with low := c.low + 1 }
    | Sev.info => { c with info := c.info + 1 }) ⟨0, 0, 0, 0, 0⟩

theorem countsOf_go_critical :
    ∀ (l : List Vuln) (c : Counts), (∀ v ∈ l, ¬ v.severity = Sev.critical) →
      (l.foldl (fun c v =>
        match v.severity with
        | Sev.critical => { c with critical := c.critical + 1 }
        | Sev.high => { c with high := c.high + 1 }
        | Sev.medium => { c with medium := c.medium + 1 }
        | Sev.low => { c with low := c.low + 1 }
        | Sev.info => { c with info := c.info + 1 }) c).critical = c.critical := by
  intro l
  induction l with
  | nil => intro c _; rfl
  | cons v l ih =>
    intro c hall
    rw [List.foldl_cons]
    have hv := hall v (by simp)
    have hrest : ∀ w ∈ l, ¬ w.severity = Sev.critical := fun w hw => hall w (by simp [hw])
    cases hsev : v.severity <;> simp only [hsev] <;>
      first
        | exact absurd hsev hv
        | exact ih _ hrest

theorem riskMap_getD_cases (k : String) :
    (riskMap k).getD Sev.low = Sev.high ∨ (riskMap k).getD Sev.low = Sev.medium ∨
      (riskMap k).getD Sev.low = Sev.low := by
  unfold riskMap
  split_ifs <;> simp

/-- C10: `convertAlertsToVulnerabilities` only ever assigns severities
`high`, `medium` or `low` — never `critical` and never `info` — whatever the
alert's risk codes are; consequently the ZAP stage alone contributes a zero
`critical` count. -/
theorem C10_zap_severity_bounds :
    (∀ (alerts : List ZapAlert) (v : Vuln), v ∈ convertAlertsToVulnerabilities alerts →
        ((v.severity = Sev.high ∨ v.severity = Sev.medium ∨ v.severity = Sev.low) ∧
          ¬ v.severity = Sev.critical ∧ ¬ v.severity = Sev.info)) ∧
    (∀ alerts : List ZapAlert,
        (countsOf (convertAlertsToVulnerabilities alerts)).critical = 0) := by
  have hmain : ∀ (alerts : List ZapAlert) (v : Vuln),
      v ∈ convertAlertsToVulnerabilities alerts →
      (v.severity = Sev.high ∨ v.severity = Sev.medium ∨ v.severity = Sev.low) := by
    intro alerts v hv
    rw [convertAlertsToVulnerabilities, List.mem_map] at hv
    obtain ⟨a, _, rfl⟩ := hv
    exact riskMap_getD_cases _
  constructor
  · intro alerts v hv
    have h := hmain alerts v hv
    refine ⟨h, ?_, ?_⟩ <;> rcases h with h | h | h <;> simp [h]
  · intro alerts
    rw [countsOf]
    exact countsOf_go_critical _ _ (fun v hv => by
      have h := hmain alerts v hv
      rcases h with h | h | h <;> simp [h])

/-- C10 witness: a single alert with an unrecognized risk code maps to
severity `low`, inside the allowed set. -/
theorem C10_witness :
    ({ type := "Some Plugin", severity := Sev.low, title := "Some Plugin",
       description := "No description provided", affectedUrl := "http://t",
       details := none, remediation := "No solution provided",
       pluginId := some "99999" } : Vuln).severity = Sev.high ∨
    ({ type := "Some Plugin", severity := Sev.low, title := "Some Plugin",
       description := "No description provided", affectedUrl := "http://t",
       details := none, remediation := "No solution provided",
       pluginId := some "99999" } : Vuln).severity = Sev.medium ∨
    ({ type := "Some Plugin", severity := Sev.low, title := "Some Plugin",
       description := "No description provided", affectedUrl := "http://t",
       details := none, remediation := "No solution provided",
       pluginId := some "99999" } : Vuln).severity = Sev.low :=
  (C10_zap_severity_bounds.1
    [{ pluginId := "99999", pluginName := "Some Plugin", alertName := "",
       name := "", description := "", solution := "", riskCode := "42",
       riskcode := "", risk := "", url := "http://t" }] _ (by decide)).1

/-- C6: the duplicate-resolver similarity equals
`1 - levenshtein(a,b)/max(len(a),len(b))` on the normalized strings, lies in
`[0,1]`, is `1` for strings identical after normalization, is `0` when either
input string is empty, and takes the concrete values the spec lists. -/
theorem C6_similarity_spec :
    (∀ s t : String, ¬ s = "" → ¬ t = "" →
        calculateStringSimilarity s t =
          1 - (lev (normChars s.toList) (normChars t.toList) : ℚ) /
              ((max (normChars s.toList).length (normChars t.toList).length : ℕ) : ℚ)) ∧
    (∀ s t : String,
        0 ≤ calculateStringSimilarity s t ∧ calculateStringSimilarity s t ≤ 1) ∧
    (∀ s t : String, ¬ s = "" → ¬ t = "" →
        normChars s.toList = normChars t.toList → calculateStringSimilarity s t = 1) ∧
    (∀ t : String,
        calculateStringSimilarity "" t = 0 ∧ calculateStringSimilarity t "" = 0) ∧
    calculateStringSimilarity "Hello" "Hello" = 1 ∧
    calculateStringSimilarity "" "x" = 0 ∧
    calculateStringSimilarity "kitten" "sitting" = 1 - 3 / 7 := by
  have hforms : ∀ s t : String, ¬ s = "" → ¬ t = "" →
      calculateStringSimilarity s t =
        1 - (lev (normChars s.toList) (normChars t.toList) : ℚ) /
            ((max (normChars s.toList).length (normChars t.toList).length : ℕ) : ℚ) := by
    intro s t hs ht
    by_cases hne : normChars s.toList = normChars t.toList
    · unfold calculateStringSimilarity
      rw [if_neg (by tauto), if_pos hne, hne, lev_self]
      norm_num
    · exact sim_eval s t hs ht hne
  have heq1 : ∀ s t : String, ¬ s = "" → ¬ t = "" →
      normChars s.toList = normChars t.toList → calculateStringSimilarity s t = 1 := by
    intro s t hs ht hne
    unfold calculateStringSimilarity
    rw [if_neg (by tauto), if_pos hne]
  refine ⟨hforms, sim_nonneg_le_one, heq1, ?_, ?_, ?_, ?_⟩
  · intro t
    constructor <;> (unfold calculateStringSimilarity; rw [if_pos (by tauto)])
  · exact heq1 "Hello" "Hello" (by decide) (by decide) rfl
  · unfold calculateStringSimilarity
    rw [if_pos (by tauto)]
  · rw [sim_eval_num "kitten" "sitting" 3 7 (by decide) (by decide) (by decide)
      (by rw [← levMatrix_eq_lev]; decide) (by decide)]
    norm_num

/-- C6 witness: the formula conjunct applied at a concrete input pair. -/
theorem C6_witness :
    calculateStringSimilarity "abc" "abd" =
      1 - (lev (normChars "abc".toList) (normChars "abd".toList) : ℚ) /
          ((max (normChars "abc".toList).length (normChars "abd".toList).length : ℕ) : ℚ) :=
  C6_similarity_spec.1 "abc" "abd" (by decide) (by decide)

/-- C7: two findings that both carry a (truthy) plugin identity with equal
values are always reported as duplicates, whatever their other fields. -/
theorem C7_pluginId_shortcircuit :
    ∀ (v1 v2 : Vuln) (p : String),
      vulnPluginKey v1 = some p → vulnPluginKey v2 = some p →
      areDuplicateVulnerabilities v1 v2 = true := by
  intro v1 v2 p h1 h2
  unfold areDuplicateVulnerabilities
  rw [h1, h2]
  simp

/-- C7 witness: findings with different URLs, titles, severities and
categories but the same plugin identity are merged. -/
theorem C7_witness :
    areDuplicateVulnerabilities
      { type := "web", severity := Sev.high, title := "SQL Injection",
        description := "a", affectedUrl := "http://one.example/a",
        details := none, remediation := "", pluginId := some "40018" }
      { type := "info", severity := Sev.low, title := "Completely Different",
        description := "b", affectedUrl := "ftp://other.example/zzz",
        details := none, remediation := "", pluginId := some "40018" } = true :=
  C7_pluginId_shortcircuit _ _ "40018" (by decide) (by decide)

theorem areDuplicate_gates (v1 v2 : Vuln)
    (hid : ¬ ∃ p : String, vulnPluginKey v1 = some p ∧ vulnPluginKey v2 = some p) :
    areDuplicateVulnerabilities v1 v2 = true ↔
      ((4 : ℚ)/5 ≤ calculateStringSimilarity v1.affectedUrl v2.affectedUrl ∧
        (3 : ℚ)/5 ≤ calculateStringSimilarity v1.title v2.title ∧
        v1.severity = v2.severity ∧ v1.type = v2.type) := by
  unfold areDuplicateVulnerabilities
  have hmatch : (match vulnPluginKey v1, vulnPluginKey v2 with
      | some p1, some p2 => p1 == p2
      | _, _ => false) = false := by
    cases h1 : vulnPluginKey v1 with
    | none => rfl
    | some p1 =>
      cases h2 : vulnPluginKey v2 with
      | none => rfl
      | some p2 =>
        simp only [beq_eq_false_iff_ne, ne_eq]
        intro hpe
        exact hid ⟨p2, by rw [h1, hpe], h2⟩
  rw [hmatch]
  simp only [Bool.false_eq_true, if_false]
  split_ifs with hu ht hs hty <;>
    simp_all [not_lt, le_of_not_lt]

/-- A pair of findings with URL similarity 0.9 and title similarity 0.9
(10-character strings at edit distance 1) and no plugin identities. -/
def sampleFindingA : Vuln :=
  { type := "web", severity := Sev.high, title := "tttttttttt",
    description := "first", affectedUrl := "aaaaaaaaaa", details := none,
    remediation := "", pluginId := none }

def sampleFindingB : Vuln :=
  { type := "web", severity := Sev.high, title := "ttttttttta",
    description := "second", affectedUrl := "aaaaaaaaab", details := none,
    remediation := "", pluginId := none }

/-- `sampleFindingB` with only the severity changed. -/
def sampleFindingBsev : Vuln :=
  { sampleFindingB with severity := Sev.medium }

set_option maxRecDepth 40000 in
theorem sample_url_sim :
    calculateStringSimilarity "aaaaaaaaaa" "aaaaaaaaab" = 1 - (1 : ℚ) / 10 :=
  sim_eval_num _ _ 1 10 (by decide) (by decide) (by decide)
    (by rw [← levMatrix_eq_lev]; decide) (by decide)

set_option maxRecDepth 40000 in
theorem sample_title_sim :
    calculateStringSimilarity "tttttttttt" "ttttttttta" = 1 - (1 : ℚ) / 10 :=
  sim_eval_num _ _ 1 10 (by decide) (by decide) (by decide)
    (by rw [← levMatrix_eq_lev]; decide) (by decide)

/-- C8: absent a shared plugin identity, the duplicate predicate holds
exactly when URL similarity ≥ 0.8, title similarity ≥ 0.6, and severity and
type agree; in particular the 0.9/0.9 sample pair above is merged, and
changing only the severity un-merges it. -/
theorem C8_similarity_gates :
    (∀ v1 v2 : Vuln,
        (¬ ∃ p : String, vulnPluginKey v1 = some p ∧ vulnPluginKey v2 = some p) →
        (areDuplicateVulnerabilities v1 v2 = true ↔
          ((4 : ℚ)/5 ≤ calculateStringSimilarity v1.affectedUrl v2.affectedUrl ∧
            (3 : ℚ)/5 ≤ calculateStringSimilarity v1.title v2.title ∧
            v1.severity = v2.severity ∧ v1.type = v2.type))) ∧
    areDuplicateVulnerabilities sampleFindingA sampleFindingB = true ∧
    areDuplicateVulnerabilities sampleFindingA sampleFindingBsev = false := by
  have hnoid : ¬ ∃ p : String, vulnPluginKey sampleFindingA = some p ∧
      vulnPluginKey sampleFindingB = some p := by
    rintro ⟨p, hp, -⟩
    rw [show vulnPluginKey sampleFindingA = none from rfl] at hp
    exact Option.noConfusion hp
  have hnoid2 : ¬ ∃ p : String, vulnPluginKey sampleFindingA = some p ∧
      vulnPluginKey sampleFindingBsev = some p := by
    rintro ⟨p, hp, -⟩
    rw [show vulnPluginKey sampleFindingA = none from rfl] at hp
    exact Option.noConfusion hp
  refine ⟨areDuplicate_gates, ?_, ?_⟩
  · rw [areDuplicate_gates _ _ hnoid]
    refine ⟨?_, ?_, rfl, rfl⟩
    · show (4 : ℚ)/5 ≤ calculateStringSimilarity "aaaaaaaaaa" "aaaaaaaaab"
      rw [sample_url_sim]; norm_num
    · show (3 : ℚ)/5 ≤ calculateStringSimilarity "tttttttttt" "ttttttttta"
      rw [sample_title_sim]; norm_num
  · have h := areDuplicate_gates _ _ hnoid2
    rcases hb : areDuplicateVulnerabilities sampleFindingA sampleFindingBsev with _ | _
    · rfl
    · exfalso
      have := (h.mp hb).2.2.1
      simp [sampleFindingA, sampleFindingBsev, sampleFindingB] at this

/-- C8 witness: the gate characterization applied at the sample pair. -/
theorem C8_witness :
    areDuplicateVulnerabilities sampleFindingA sampleFindingB = true ↔
      ((4 : ℚ)/5 ≤ calculateStringSimilarity sampleFindingA.affectedUrl
          sampleFindingB.affectedUrl ∧
        (3 : ℚ)/5 ≤ calculateStringSimilarity sampleFindingA.title sampleFindingB.title ∧
        sampleFindingA.severity = sampleFindingB.severity ∧
        sampleFindingA.type = sampleFindingB.type) :=
  C8_similarity_gates.1 sampleFindingA sampleFindingB (by
    rintro ⟨p, hp, -⟩
    rw [show vulnPluginKey sampleFindingA = none from rfl] at hp
    exact Option.noConfusion hp)

/-! ## Recurrence scheduler arithmetic (src/unnamed/part_004)

Instants are minutes since an epoch whose day 0 is a Thursday (as for the
Unix epoch), with uniform 1440-minute days (the schedules' arithmetic uses
local calendar days; no DST modelling is needed by any claim). -/

/-- Midnight of the day containing `t`. -/
def dayStart (t : Nat) : Nat := (t / 1440) * 1440

/-- JavaScript `getDay()`: 0 = Sunday ... 6 = Saturday; day 0 is a Thursday. -/
def weekday (t : Nat) : Nat := (t / 1440 + 4) % 7

/-- Minutes past midnight. -/
def timeOfDay (t : Nat) : Nat := t % 1440

/-- The `weekly` branch of `calculateNextRun` (src/unnamed/part_004):
`nextRun` is seeded as the reference day at the target clock time
(`setHours(hours, minutes, 0, 0)`); with a target weekday, it advances by
`(targetDay - currentDay + 7) % 7` days, replaced by a full week when that
is zero and the seeded time is not after the reference; without a weekday
(legacy) it adds 7 days exactly when the seeded time is not after the
reference. -/
def calculateNextRunWeekly (dayOfWeek : Option Nat) (hours minutes fromDate : Nat) :
    Nat :=
  let base := dayStart fromDate + (hours * 60 + minutes)
  match dayOfWeek with
  | some targetDay =>
      let currentDay := weekday base
      let daysToAdd0 := (targetDay + 7 - currentDay) % 7
      let daysToAdd := if daysToAdd0 = 0 ∧ base ≤ fromDate then 7 else daysToAdd0
      base + daysToAdd * 1440
  | none => if base ≤ fromDate then base + 7 * 1440 else base

/-- C9: with a target weekday, `calculateNextRun` returns the first instant
strictly after the reference whose weekday and clock time are the targets —
in particular it keeps the reference day when the reference falls on the
target weekday before the target time; legacy weekly schedules (no weekday)
add 7 days exactly when the target time of the reference day has passed.
Concretely (days relative to a Thursday epoch): Monday 10:00 → the coming
Wednesday 02:00, and Wednesday 01:00 → the same Wednesday 02:00. -/
theorem C9_weekly_next_run :
    (∀ (d hours minutes fromDate : Nat), d < 7 → hours * 60 + minutes < 1440 →
        (weekday (calculateNextRunWeekly (some d) hours minutes fromDate) = d ∧
          timeOfDay (calculateNextRunWeekly (some d) hours minutes fromDate) =
            hours * 60 + minutes ∧
          fromDate < calculateNextRunWeekly (some d) hours minutes fromDate ∧
          (∀ t : Nat, weekday t = d → timeOfDay t = hours * 60 + minutes →
            fromDate < t → calculateNextRunWeekly (some d) hours minutes fromDate ≤ t))) ∧
    (∀ (d hours minutes fromDate : Nat), d < 7 → hours * 60 + minutes < 1440 →
        weekday fromDate = d → fromDate < dayStart fromDate + (hours * 60 + minutes) →
        calculateNextRunWeekly (some d) hours minutes fromDate =
          dayStart fromDate + (hours * 60 + minutes)) ∧
    (∀ (hours minutes fromDate : Nat),
        (dayStart fromDate + (hours * 60 + minutes) ≤ fromDate →
          calculateNextRunWeekly none hours minutes fromDate =
            dayStart fromDate + (hours * 60 + minutes) + 7 * 1440) ∧
        (fromDate < dayStart fromDate + (hours * 60 + minutes) →
          calculateNextRunWeekly none hours minutes fromDate =
            dayStart fromDate + (hours * 60 + minutes))) ∧
    calculateNextRunWeekly (some 3) 2 0 (4 * 1440 + 600) = 6 * 1440 + 120 ∧
    calculateNextRunWeekly (some 3) 2 0 (6 * 1440 + 60) = 6 * 1440 + 120 := by
  refine ⟨?_, ?_, ?_, by decide, by decide⟩
  · intro d hours minutes fromDate hd htod
    simp only [calculateNextRunWeekly, dayStart, weekday, timeOfDay]
    refine ⟨?_, ?_, ?_, ?_⟩
    · split_ifs <;> omega
    · split_ifs <;> omega
    · split_ifs <;> omega
    · intro t h1 h2 h3
      split_ifs <;> omega
  · intro d hours minutes fromDate hd htod hwd hlt
    simp only [calculateNextRunWeekly, dayStart, weekday, timeOfDay] at *
    split_ifs <;> omega
  · intro hours minutes fromDate
    constructor
    · intro h
      simp only [calculateNextRunWeekly]
      rw [if_pos h]
    · intro h
      simp only [calculateNextRunWeekly]
      rw [if_neg (by omega)]

/-- C9 witness: the same-day conjunct at the concrete Wednesday 01:00
reference. -/
theorem C9_witness :
    calculateNextRunWeekly (some 3) 2 0 (6 * 1440 + 60) =
      dayStart (6 * 1440 + 60) + (2 * 60 + 0) :=
  C9_weekly_next_run.2.1 3 2 0 (6 * 1440 + 60) (by decide) (by decide) (by decide)
    (by decide)

/-! ## Pipeline orchestrator embeddings

Variant 1 is `performScan` of `src/unnamed/part_000` (stage windows
0-10-30-45-90-100, deduplication, `completed`-with-findings error handling);
variant 2 is `performScan` of `src/server/scanner.ts` (windows
0-15-35-50-90-100, mandatory validation with fallback, `failed`/`cancelled`
error handling, no deduplication).  Runs are modelled as pure functions of
an environment describing every external outcome, producing the trace of
storage operations and the returned aggregate.  `new URL(targetUrl)` is
assumed to parse (the hostname is supplied); it runs before any observable
operation. -/

/-- Fields of one `storage.updateScan` partial update (date fields carry no
information any claim observes and are omitted; `none` = not written). -/
structure ScanUpdate where
  status : Option ScanStatus := none
  progress : Option Nat := none
  totalVulnerabilities : Option Nat := none
  criticalCount : Option Nat := none
  highCount : Option Nat := none
  mediumCount : Option Nat := none
  lowCount : Option Nat := none
  infoCount : Option Nat := none
deriving DecidableEq, Repr

/-- Observable operations issued during a run. -/
inductive Event
  | updateScan (u : ScanUpdate)
  | createVulnerability (v : Vuln)
  | createReport
  | toolNmap
  | toolNikto
deriving DecidableEq, Repr

/-- The orchestrator only ever distinguishes the error message
`"Scan cancelled by user"` from all others. -/
inductive Err
  | cancel
  | other
deriving DecidableEq, Repr

/-- State threaded through a run: abort-flag reads so far, awaited
`updateScan` calls so far, the event trace, and the `vulnerabilities`
accumulator. -/
structure St where
  ticks : Nat
  upd : Nat
  events : List Event
  vulns : List Vuln
deriving DecidableEq, Repr

/-- The cancellation flag is monotone: reads report `true` from read number
`abortAt` on (`none` = never set). -/
def flagAt (abortAt : Option Nat) (k : Nat) : Bool :=
  match abortAt with
  | none => false
  | some n => decide (n ≤ k)

/-- One `controller.signal.aborted` read. -/
def readAbort (abortAt : Option Nat) (s : St) : Bool × St :=
  (flagAt abortAt s.ticks, { s with ticks := s.ticks + 1 })

/-- `if (controller.signal.aborted) throw new Error("Scan cancelled by user")`. -/
def checkAbort (abortAt : Option Nat) (s : St) : Except (Err × St) St :=
  let r := readAbort abortAt s
  if r.1 then Except.error (Err.cancel, r.2) else Except.ok r.2

/-- An awaited `storage.updateScan` call: call number `s.upd`; a rejection
(per `failUpd`) raises a non-cancellation error and records no write. -/
def updScan (failUpd : Nat → Bool) (u : ScanUpdate) (s : St) : Except (Err × St) St :=
  if failUpd s.upd then Except.error (Err.other, { s with upd := s.upd + 1 })
  else Except.ok { s with upd := s.upd + 1, events := s.events ++ [Event.updateScan u] }

/-- The `storage.updateScan` issued by the ZAP progress callback: the
callback's promise is not awaited by `waitForScan`, so a rejection is lost
rather than raised. -/
def updScanNoAwait (failUpd : Nat → Bool) (u : ScanUpdate) (s : St) : St :=
  if failUpd s.upd then { s with upd := s.upd + 1 }
  else { s with upd := s.upd + 1, events := s.events ++ [Event.updateScan u] }

def pushVuln (v : Vuln) (s : St) : St := { s with vulns := s.vulns ++ [v] }

def emit (e : Event) (s : St) : St := { s with events := s.events ++ [e] }

/-- `Math.round(Math.min(fromProgress + increment * i, toProgress))` for the
`i`-th write of `updateProgressSmooth` with `increment = (to-from)/20`; all
call sites have `from ≤ to`, so the `min` never binds and half-up rounding
of the exact rational is `(40f + 2(t-f)i + 20) / 40`. -/
def smoothVal (f t i : Nat) : Nat := (40 * f + 2 * (t - f) * i + 20) / 40

def smoothGo (abortAt : Option Nat) (failUpd : Nat → Bool) (f t : Nat) :
    List Nat → St → Except (Err × St) St
  | [], s => Except.ok s
  | i :: rest, s => do
      let s ← checkAbort abortAt s
      let s ← updScan failUpd { progress := some (smoothVal f t i) } s
      smoothGo abortAt failUpd f t rest s

/-- `updateProgressSmooth(scanId, from, to, durationMs, controller)`:
21 abort-checked writes (`i = 0..20`) followed by a final write of the
rounded target (the sleeps have no observable effect). -/
def updateProgressSmooth (abortAt : Option Nat) (failUpd : Nat → Bool) (f t : Nat)
    (s : St) : Except (Err × St) St := do
  let s ← smoothGo abortAt failUpd f t (List.range 21) s
  updScan failUpd { progress := some t } s

/-- External outcomes of the ZAP daemon protocol for one scan. -/
structure ZapEnv where
  ready2 : Bool                -- `isReady()` inside `zapClient.performScan`
  startOk : Bool               -- active-scan initiation (spider failures are absorbed earlier)
  polls : List (Option Nat)    -- status polls; `none` = poll error (absorbed); list end = timeout
  alerts : List ZapAlert       -- `getAlerts` result (a fetch failure is already `[]`)

/-- `waitForScan` (zap-client.ts, lines 252-295): each iteration reads the
abort flag (aborted → stop the daemon scan and raise cancellation), then
polls; a poll error is absorbed; a status report invokes the progress
callback (which writes `lo + floor(p * span / 100)`, not awaited) and the
loop returns at 100; an exhausted poll budget raises the timeout error. -/
def zapWaitGo (abortAt : Option Nat) (failUpd : Nat → Bool) (lo span : Nat) :
    List (Option Nat) → Nat → St → Except (Err × St) (Nat × St)
  | [], _, s => Except.error (Err.other, s)
  | poll :: rest, lastP, s =>
      if flagAt abortAt s.ticks then
        Except.error (Err.cancel, { s with ticks := s.ticks + 1 })
      else
        match poll with
        | none => zapWaitGo abortAt failUpd lo span rest lastP { s with ticks := s.ticks + 1 }
        | some p =>
            if p = 100 then
              Except.ok (lo + p * span / 100,
                updScanNoAwait failUpd { progress := some (lo + p * span / 100) }
                  { s with ticks := s.ticks + 1 })
            else
              zapWaitGo abortAt failUpd lo span rest (lo + p * span / 100)
                (updScanNoAwait failUpd { progress := some (lo + p * span / 100) }
                  { s with ticks := s.ticks + 1 })

/-- `zapClient.performScan`: readiness check (daemon unavailable → error),
`startScan` (initiation failure → error), the poll loop, then alert
collection and conversion.  Returns the last mapped progress reported
through the callback together with the converted findings. -/
def zapPerformScan (abortAt : Option Nat) (failUpd : Nat → Bool) (lo span : Nat)
    (z : ZapEnv) (s : St) : Except (Err × St) (Nat × List Vuln × St) := do
  if ¬ z.ready2 then Except.error (Err.other, s)
  else if ¬ z.startOk then Except.error (Err.other, s)
  else do
    let r ← zapWaitGo abortAt failUpd lo span z.polls lo s
    Except.ok (r.1, convertAlertsToVulnerabilities z.alerts, r.2)

/-! ### Variant 1 (src/unnamed/part_000) -/

/-- Result of variant 1's `httpxService.scan` (src/unnamed/part_001): on any
failure the service throws (environment value `none`); on success it yields
a status code and header metadata (`some 0` plays the falsy role of a
missing status code). -/
structure HttpxV1Res where
  statusCode : Option Nat
  contentType : String
  webserver : String
  title : String
deriving DecidableEq, Repr

structure NmapPort where
  port : Nat
  protocol : String
  service : String
deriving DecidableEq, Repr

structure NmapRes where
  openPorts : List NmapPort
  rawOutput : String
deriving DecidableEq, Repr

structure NiktoItem where
  msg : String
  uri : Option String
  id : String
  method : String
deriving DecidableEq, Repr

structure NiktoRes where
  vulnerabilities : List NiktoItem
deriving DecidableEq, Repr

/-- Environment of one variant-1 run.  `abortAt` is the abort-flag read
index from which cancellation is observed; `failUpd k` makes the `k`-th
awaited `storage.updateScan` call reject — the only modelled source of an
unexpected (non-tool) error, since this variant's stage guards absorb every
tool failure.  `resolveUrl base rel` stands for
`new URL(rel, base).toString()`. -/
structure EnvV1 where
  abortAt : Option Nat
  failUpd : Nat → Bool
  httpx : Option HttpxV1Res
  nmap : Option NmapRes
  nikto : Option NiktoRes
  zapReady1 : Bool
  zap : ZapEnv
  resolveUrl : String → String → String

/-- `httpxResult && httpxResult.statusCode && httpxResult.statusCode < 500`. -/
def httpxValidated (r : Option HttpxV1Res) : Bool :=
  match r with
  | none => false
  | some r =>
      match r.statusCode with
      | none => false
      | some c => ¬ c = 0 ∧ c < 500

/-- The informational finding recorded when validation is inconclusive. -/
def preValidationVuln (targetUrl : String) : Vuln :=
  { type := "info", severity := Sev.info, title := "Target Pre-Validation Note",
    description := "Initial validation via Httpx was inconclusive. This does not necessarily mean the target is unreachable - scan will proceed.",
    affectedUrl := targetUrl,
    details := some "Target might be blocking automated HTTP requests.",
    remediation := "If scan finds vulnerabilities, this warning can be ignored.",
    pluginId := none }

/-- The server-information finding recorded on successful validation
(`targetInfo.server` is always truthy thanks to the `|| 'Unknown'`
fallback, so validation always records it); `details` carries the
stringified `targetInfo` JSON, opaque to every claim. -/
def serverInfoVuln (targetUrl : String) (r : HttpxV1Res) : Vuln :=
  { type := "info", severity := Sev.info, title := "Server Information",
    description := "Web server: " ++ jsOr r.webserver "Unknown" ++ " | Title: " ++
      jsOr r.title "Unknown",
    affectedUrl := targetUrl,
    details := some "stringified targetInfo",
    remediation := "Information only.",
    pluginId := none }

def openPortsVuln (hostname : String) (r : NmapRes) : Vuln :=
  { type := "info", severity := Sev.low, title := "Open Ports Discovered",
    description := "Nmap found the following open ports: " ++
      String.intercalate ", " (r.openPorts.map (fun p =>
        toString p.port ++ "/" ++ p.protocol ++ " (" ++ p.service ++ ")")),
    affectedUrl := hostname,
    details := some r.rawOutput,
    remediation := "Ensure only necessary ports are exposed.",
    pluginId := none }

/-- One Nikto finding; `v.uri ? new URL(v.uri, targetUrl).toString() :
targetUrl` with the falsy empty URI handled. -/
def niktoVuln (resolveUrl : String → String → String) (targetUrl : String)
    (v : NiktoItem) : Vuln :=
  { type := "web", severity := Sev.medium,
    title := "Nikto: " ++ v.msg.take 100 ++ "...",
    description := v.msg,
    affectedUrl :=
      match v.uri with
      | none => targetUrl
      | some u => if u = "" then targetUrl else resolveUrl targetUrl u,
    details := some ("Nikto ID: " ++ v.id ++ ", Method: " ++ v.method),
    remediation := "Check web server configuration.",
    pluginId := none }

/-- Stage 1 (lines 212-260): abort check, 0→10 animation, best-effort
probe, then either the server-information or the pre-validation finding. -/
def stage1V1 (env : EnvV1) (targetUrl : String) (s : St) : Except (Err × St) St := do
  let s ← checkAbort env.abortAt s
  let s ← updateProgressSmooth env.abortAt env.failUpd 0 10 s
  match env.httpx with
  | some r =>
      if httpxValidated (some r) then Except.ok (pushVuln (serverInfoVuln targetUrl r) s)
      else Except.ok (pushVuln (preValidationVuln targetUrl) s)
  | none => Except.ok (pushVuln (preValidationVuln targetUrl) s)

/-- Stage 2 (lines 262-296): skipped entirely for `"shallow"` (the window
still animates); otherwise the port scanner runs after the animation, a
failure being absorbed. -/
def stage2V1 (env : EnvV1) (hostname scanType : String) (s : St) :
    Except (Err × St) St := do
  let s ← checkAbort env.abortAt s
  if scanType = "shallow" then
    updateProgressSmooth env.abortAt env.failUpd 10 30 s
  else do
    let s ← updateProgressSmooth env.abortAt env.failUpd 10 30 s
    let s := emit Event.toolNmap s
    match env.nmap with
    | some r =>
        if ¬ r.openPorts = [] then Except.ok (pushVuln (openPortsVuln hostname r) s)
        else Except.ok s
    | none => Except.ok s

/-- Stage 3 (lines 298-333): skipped entirely for `"shallow"`; otherwise
Nikto findings are appended, a failure being absorbed. -/
def stage3V1 (env : EnvV1) (targetUrl scanType : String) (s : St) :
    Except (Err × St) St := do
  let s ← checkAbort env.abortAt s
  if scanType = "shallow" then
    updateProgressSmooth env.abortAt env.failUpd 30 45 s
  else do
    let s ← updateProgressSmooth env.abortAt env.failUpd 30 45 s
    let s := emit Event.toolNikto s
    match env.nikto with
    | some r =>
        Except.ok (r.vulnerabilities.foldl
          (fun s v => pushVuln (niktoVuln env.resolveUrl targetUrl v) s) s)
    | none => Except.ok s

/-- The guarded body of stage 4 (lines 339-378): daemon not accessible →
skip with a 45→90 animation; otherwise run the poller (progress mapped to
`45 + floor(p*45/100)`) and finish the window if the callback stopped short
of 90. -/
def zapTryV1 (env : EnvV1) (s : St) : Except (Err × St) (List Vuln × St) := do
  if ¬ env.zapReady1 then do
    let s ← updateProgressSmooth env.abortAt env.failUpd 45 90 s
    Except.ok ([], s)
  else do
    let r ← zapPerformScan env.abortAt env.failUpd 45 45 env.zap s
    if r.1 < 90 then do
      let s2 ← updateProgressSmooth env.abortAt env.failUpd r.1 90 r.2.2
      Except.ok (r.2.1, s2)
    else Except.ok (r.2.1, r.2.2)

/-- The `zapError` guard around the stage-4 body (lines 379-386):
cancellation is re-raised; any other poller error is absorbed with an empty
result and a fresh 45→90 animation. -/
def zapGuardedV1 (env : EnvV1) (s : St) : Except (Err × St) (List Vuln × St) :=
  match zapTryV1 env s with
  | Except.ok r => Except.ok r
  | Except.error (Err.cancel, s) => Except.error (Err.cancel, s)
  | Except.error (Err.other, s) =>
      match updateProgressSmooth env.abortAt env.failUpd 45 90 s with
      | Except.ok s2 => Except.ok (([] : List Vuln), s2)
      | Except.error e => Except.error e

/-- Stage 4 (lines 335-404): abort check, guarded body, then the returned
findings are given the target URL when their own is falsy and appended. -/
def stage4V1 (env : EnvV1) (targetUrl : String) (s : St) : Except (Err × St) St :=
  match checkAbort env.abortAt s with
  | Except.error e => Except.error e
  | Except.ok s =>
      match zapGuardedV1 env s with
      | Except.error e => Except.error e
      | Except.ok r =>
          Except.ok ((r.1.map (fun v =>
            if v.affectedUrl = "" then { v with affectedUrl := targetUrl } else v)).foldl
              (fun s v => pushVuln v s) r.2)

/-- Finalization (lines 406-469): deduplicate, recount, 90→100 animation,
persist each surviving finding (failures swallowed per item), terminal
`completed` update with progress 100, best-effort report creation. -/
def finalizeV1 (env : EnvV1) (s : St) : Except (Err × St) (List Vuln × St) := do
  let ded := (deduplicateVulnerabilities s.vulns).1
  let s ← updateProgressSmooth env.abortAt env.failUpd 90 100 s
  let s := ded.foldl (fun s v => emit (Event.createVulnerability v) s) s
  let c := countsOf ded
  let s ← updScan env.failUpd
    { status := some ScanStatus.completed, totalVulnerabilities := some ded.length,
      criticalCount := some c.critical, highCount := some c.high,
      mediumCount := some c.medium, lowCount := some c.low,
      infoCount := some c.info, progress := some 100 } s
  Except.ok (ded, emit Event.createReport s)

def tryBodyV1 (env : EnvV1) (targetUrl hostname scanType : String) (s : St) :
    Except (Err × St) (List Vuln × St) := do
  let s ← updScan env.failUpd
    { status := some ScanStatus.running, progress := some 0 } s
  let s ← checkAbort env.abortAt s
  let s ← stage1V1 env targetUrl s
  let s ← stage2V1 env hostname scanType s
  let s ← stage3V1 env targetUrl scanType s
  let s ← stage4V1 env targetUrl s
  finalizeV1 env s

structure ScanResultA where
  vulns : List Vuln
  counts : Counts
deriving DecidableEq, Repr

/-- How a run ended: normally; through the non-cancellation error handler;
through the cancellation handler; or with the handler's own terminal write
rejecting, so the exception escaped `performScan` itself. -/
inductive RunExit
  | finished
  | errorCaught
  | cancelledCaught
  | escaped
deriving DecidableEq, Repr

structure RunRes where
  events : List Event
  exit : RunExit
  result : Option ScanResultA
deriving DecidableEq, Repr

/-- The cancellation handler's terminal update (lines 477-485): status
`cancelled`, zeroed counters (no `infoCount` field), and no progress. -/
def cancelUpdateV1 : ScanUpdate :=
  { status := some ScanStatus.cancelled, totalVulnerabilities := some 0,
    criticalCount := some 0, highCount := some 0, mediumCount := some 0,
    lowCount := some 0 }

/-- The non-cancellation handler's terminal update (lines 519-529). -/
def errorUpdateV1 (ded : List Vuln) : ScanUpdate :=
  { status := some ScanStatus.completed, totalVulnerabilities := some ded.length,
    criticalCount := some (countsOf ded).critical,
    highCount := some (countsOf ded).high, mediumCount := some (countsOf ded).medium,
    lowCount := some (countsOf ded).low, infoCount := some (countsOf ded).info,
    progress := some 100 }

/-- `performScan` of variant 1: the guarded pipeline, the cancellation
handler (zeroed terminal update, empty aggregate), and the unexpected-error
handler (deduplicate what was gathered, write `completed` with progress
100, persist the survivors, return them). -/
def performScanV1 (env : EnvV1) (targetUrl hostname scanType : String) : RunRes :=
  match tryBodyV1 env targetUrl hostname scanType ⟨0, 0, [], []⟩ with
  | Except.ok (ded, s) =>
      { events := s.events, exit := RunExit.finished,
        result := some ⟨ded, countsOf ded⟩ }
  | Except.error (Err.cancel, s) =>
      match updScan env.failUpd cancelUpdateV1 s with
      | Except.ok s' =>
          { events := s'.events, exit := RunExit.cancelledCaught,
            result := some ⟨[], ⟨0, 0, 0, 0, 0⟩⟩ }
      | Except.error e => { events := e.2.events, exit := RunExit.escaped, result := none }
  | Except.error (Err.other, s) =>
      let ded := (deduplicateVulnerabilities s.vulns).1
      match updScan env.failUpd (errorUpdateV1 ded) s with
      | Except.ok s' =>
          { events := (ded.foldl (fun s v => emit (Event.createVulnerability v) s) s').events,
            exit := RunExit.errorCaught, result := some ⟨ded, countsOf ded⟩ }
      | Except.error e => { events := e.2.events, exit := RunExit.escaped, result := none }

/-! ### Variant 2 (src/server/scanner.ts) -/

/-- Result of variant 2's `httpxService.scan` (src/unnamed/part_002): never
throws observably to the pipeline (a thrown error is caught and treated as
`reachable: false`, which the environment folds into `none`). -/
structure HttpxV2Res where
  reachable : Bool
  tech : List String
deriving DecidableEq, Repr

/-- Environment of one variant-2 run.  `fallbackFetch` is the status of the
`HEAD` fallback request (`none` = the fetch itself failed). -/
structure EnvV2 where
  abortAt : Option Nat
  failUpd : Nat → Bool
  httpx : Option HttpxV2Res
  fallbackFetch : Option Nat
  nmap : Option NmapRes
  nikto : Option NiktoRes
  zapReady1 : Bool
  zap : ZapEnv
  resolveUrl : String → String → String

def techVuln (targetUrl : String) (tech : List String) : Vuln :=
  { type := "info", severity := Sev.info, title := "Detected Technologies",
    description := "Technologies detected by httpx: " ++ String.intercalate ", " tech,
    affectedUrl := targetUrl,
    details := some "stringified httpxResult",
    remediation := "Information only.",
    pluginId := none }

/-- Stage 1 of variant 2 (scanner.ts lines 97-147): abort check, 0→15
animation, probe (recording a tech finding when reachable with detected
technologies), and on unreachability a `HEAD` fallback whose failure (or
5xx status) throws the fatal `Target ... is unreachable` error. -/
def stage1V2 (env : EnvV2) (targetUrl : String) (s : St) : Except (Err × St) St := do
  let s ← checkAbort env.abortAt s
  let s ← updateProgressSmooth env.abortAt env.failUpd 0 15 s
  match env.httpx with
  | some r =>
      if r.reachable then
        if ¬ r.tech = [] then Except.ok (pushVuln (techVuln targetUrl r.tech) s)
        else Except.ok s
      else
        match env.fallbackFetch with
        | some st => if st < 500 then Except.ok s else Except.error (Err.other, s)
        | none => Except.error (Err.other, s)
  | none =>
      match env.fallbackFetch with
      | some st => if st < 500 then Except.ok s else Except.error (Err.other, s)
      | none => Except.error (Err.other, s)

/-- Stage 2 of variant 2 (lines 150-191): window 15→35, skipped for
`"shallow"`. -/
def stage2V2 (env : EnvV2) (hostname scanType : String) (s : St) :
    Except (Err × St) St := do
  let s ← checkAbort env.abortAt s
  if scanType = "shallow" then
    updateProgressSmooth env.abortAt env.failUpd 15 35 s
  else do
    let s ← updateProgressSmooth env.abortAt env.failUpd 15 35 s
    let s := emit Event.toolNmap s
    match env.nmap with
    | some r =>
        if ¬ r.openPorts = [] then Except.ok (pushVuln (openPortsVuln hostname r) s)
        else Except.ok s
    | none => Except.ok s

/-- Stage 3 of variant 2 (lines 193-233): window 35→50, skipped for
`"shallow"`. -/
def stage3V2 (env : EnvV2) (targetUrl scanType : String) (s : St) :
    Except (Err × St) St := do
  let s ← checkAbort env.abortAt s
  if scanType = "shallow" then
    updateProgressSmooth env.abortAt env.failUpd 35 50 s
  else do
    let s ← updateProgressSmooth env.abortAt env.failUpd 35 50 s
    let s := emit Event.toolNikto s
    match env.nikto with
    | some r =>
        Except.ok (r.vulnerabilities.foldl
          (fun s v => pushVuln (niktoVuln env.resolveUrl targetUrl v) s) s)
    | none => Except.ok s

/-- Guarded stage-4 body of variant 2 (lines 241-281): daemon not ready →
skip with a 50→90 animation; otherwise poll with progress mapped to
`50 + floor(p*40/100)` and finish the window if short of 90. -/
def zapTryV2 (env : EnvV2) (s : St) : Except (Err × St) (List Vuln × St) := do
  if ¬ env.zapReady1 then do
    let s ← updateProgressSmooth env.abortAt env.failUpd 50 90 s
    Except.ok ([], s)
  else do
    let r ← zapPerformScan env.abortAt env.failUpd 50 40 env.zap s
    if r.1 < 90 then do
      let s2 ← updateProgressSmooth env.abortAt env.failUpd r.1 90 r.2.2
      Except.ok (r.2.1, s2)
    else Except.ok (r.2.1, r.2.2)

/-- The `zapError` guard of variant 2 (lines 282-288): cancellation
re-raised, any other poller error absorbed with an empty result (no
progress rewrite in this variant). -/
def zapGuardedV2 (env : EnvV2) (s : St) : Except (Err × St) (List Vuln × St) :=
  match zapTryV2 env s with
  | Except.ok r => Except.ok r
  | Except.error (Err.cancel, s) => Except.error (Err.cancel, s)
  | Except.error (Err.other, s) => Except.ok (([] : List Vuln), s)

/-- Stage 4 of variant 2 (lines 235-307). -/
def stage4V2 (env : EnvV2) (targetUrl : String) (s : St) : Except (Err × St) St :=
  match checkAbort env.abortAt s with
  | Except.error e => Except.error e
  | Except.ok s =>
      match zapGuardedV2 env s with
      | Except.error e => Except.error e
      | Except.ok r =>
          Except.ok ((r.1.map (fun v =>
            if v.affectedUrl = "" then { v with affectedUrl := targetUrl } else v)).foldl
              (fun s v => pushVuln v s) r.2)

/-- The running severity counters of variant 2: each pushed finding is
counted at push time by a `switch` with no `info` case, which is exactly an
info-less count over the accumulated list. -/
def countsNoInfo (l : List Vuln) : Counts :=
  l.foldl (fun c v =>
    match v.severity with
    | Sev.critical => { c with critical := c.critical + 1 }
    | Sev.high => { c with high := c.high + 1 }
    | Sev.medium => { c with medium := c.medium + 1 }
    | Sev.low => { c with low := c.low + 1 }
    | Sev.info => c) ⟨0, 0, 0, 0, 0⟩

/-- Finalization of variant 2 (lines 309-355): 90→100 animation, persist
every accumulated finding (no deduplication), terminal `completed` update
with the four running counters and progress 100, best-effort report. -/
def finalizeV2 (env : EnvV2) (s : St) : Except (Err × St) (List Vuln × St) := do
  let s ← updateProgressSmooth env.abortAt env.failUpd 90 100 s
  let vulns := s.vulns
  let s := vulns.foldl (fun s v => emit (Event.createVulnerability v) s) s
  let c := countsNoInfo vulns
  let s ← updScan env.failUpd
    { status := some ScanStatus.completed, totalVulnerabilities := some vulns.length,
      criticalCount := some c.critical, highCount := some c.high,
      mediumCount := some c.medium, lowCount := some c.low,
      progress := some 100 } s
  Except.ok (vulns, emit Event.createReport s)

def tryBodyV2 (env : EnvV2) (targetUrl hostname scanType : String) (s : St) :
    Except (Err × St) (List Vuln × St) := do
  let s ← updScan env.failUpd
    { status := some ScanStatus.running, progress := some 0 } s
  let s ← checkAbort env.abortAt s
  let s ← stage1V2 env targetUrl s
  let s ← stage2V2 env hostname scanType s
  let s ← stage3V2 env targetUrl scanType s
  let s ← stage4V2 env targetUrl s
  finalizeV2 env s

/-- The single catch handler of variant 2 (lines 357-384): status
`cancelled` for the cancellation message and `failed` otherwise, zeroed
counters, no progress written, empty aggregate returned. -/
def catchUpdateV2 (e : Err) : ScanUpdate :=
  { status := some (if e = Err.cancel then ScanStatus.cancelled else ScanStatus.failed),
    totalVulnerabilities := some 0, criticalCount := some 0, highCount := some 0,
    mediumCount := some 0, lowCount := some 0 }

/-- `performScan` of variant 2. -/
def performScanV2 (env : EnvV2) (targetUrl hostname scanType : String) : RunRes :=
  match tryBodyV2 env targetUrl hostname scanType ⟨0, 0, [], []⟩ with
  | Except.ok (vulns, s) =>
      { events := s.events, exit := RunExit.finished,
        result := some ⟨vulns, countsNoInfo vulns⟩ }
  | Except.error (e, s) =>
      match updScan env.failUpd (catchUpdateV2 e) s with
      | Except.ok s' =>
          { events := s'.events,
            exit := if e = Err.cancel then RunExit.cancelledCaught else RunExit.errorCaught,
            result := some ⟨[], ⟨0, 0, 0, 0, 0⟩⟩ }
      | Except.error e' => { events := e'.2.events, exit := RunExit.escaped, result := none }

/-! ### Scheduler trigger (src/unnamed/part_004, lines 62-92)

For each due schedule the scheduler creates the scan with
`scanType: "quick"` and invokes `performScan(scan.id, schedule.targetUrl,
"quick", abortController)`. -/

/-- The depth string hard-coded by the scheduler for every triggered scan. -/
def schedulerScanType : String := "quick"

/-- Progress values written over a trace, in order. -/
def progOf (l : List Event) : List Nat :=
  l.filterMap (fun e =>
    match e with
    | Event.updateScan u => u.progress
    | _ => none)

/-- Status values written over a trace, in order; the last one is the
record's final status. -/
def statusOf (l : List Event) : List ScanStatus :=
  l.filterMap (fun e =>
    match e with
    | Event.updateScan u => u.status
    | _ => none)

def lastStatusOf (l : List Event) : Option ScanStatus := (statusOf l).getLast?

/-- Findings persisted over a trace, in order. -/
def createdOf (l : List Event) : List Vuln :=
  l.filterMap (fun e =>
    match e with
    | Event.createVulnerability v => some v
    | _ => none)

/-- A benign variant-1 environment: no cancellation, reliable storage,
probe failure, no tool findings, ZAP daemon unavailable. -/
def baseEnvV1 : EnvV1 :=
  { abortAt := none, failUpd := fun _ => false, httpx := none,
    nmap := some ⟨[], ""⟩, nikto := some ⟨[]⟩, zapReady1 := false,
    zap := ⟨true, true, [], []⟩, resolveUrl := fun _ u => u }

/-- The corresponding benign variant-2 environment (with a succeeding
fallback probe so the pipeline is not aborted). -/
def baseEnvV2 : EnvV2 :=
  { abortAt := none, failUpd := fun _ => false, httpx := some ⟨true, []⟩,
    fallbackFetch := some 200, nmap := some ⟨[], ""⟩, nikto := some ⟨[]⟩,
    zapReady1 := false, zap := ⟨true, true, [], []⟩, resolveUrl := fun _ u => u }

set_option maxRecDepth 200000 in
/-- C4 (supporting theorem for the code bug): the scheduler's hard-coded
depth string `"quick"` is not the pipeline's lightest tier `"shallow"`, and
a scheduler-triggered run therefore invokes the PortScan and WebServerScan
adapters, while the same environment under `"shallow"` skips both. -/
theorem C4_scheduler_quick_not_lightweight :
    ¬ schedulerScanType = "shallow" ∧
    Event.toolNmap ∈ (performScanV1 baseEnvV1 "http://t" "t" schedulerScanType).events ∧
    Event.toolNikto ∈ (performScanV1 baseEnvV1 "http://t" "t" schedulerScanType).events ∧
    ¬ Event.toolNmap ∈ (performScanV1 baseEnvV1 "http://t" "t" "shallow").events ∧
    ¬ Event.toolNikto ∈ (performScanV1 baseEnvV1 "http://t" "t" "shallow").events := by
  decide

/-- Environment for the C1 counterexample: target validated (so one finding
is gathered), then the first progress write of stage 2 (awaited update
number 23) rejects — an unexpected error outside every tool guard. -/
def envC1x : EnvV1 :=
  { baseEnvV1 with
      httpx := some ⟨some 200, "text/html", "nginx", "Home"⟩,
      failUpd := fun k => k = 23 }

set_option maxRecDepth 200000 in
/-- C1 counterexample: in the part_000 variant an unexpected error reaching
the outer handler yields terminal status `completed` (not `failed`), and
the finding gathered before the error is persisted and returned (the
aggregate is not empty). -/
theorem C1_counterexample :
    (performScanV1 envC1x "http://t" "t" "shallow").exit = RunExit.errorCaught ∧
    lastStatusOf (performScanV1 envC1x "http://t" "t" "shallow").events =
      some ScanStatus.completed ∧
    ¬ lastStatusOf (performScanV1 envC1x "http://t" "t" "shallow").events =
      some ScanStatus.failed ∧
    createdOf (performScanV1 envC1x "http://t" "t" "shallow").events =
      [serverInfoVuln "http://t" ⟨some 200, "text/html", "nginx", "Home"⟩] ∧
    (performScanV1 envC1x "http://t" "t" "shallow").result =
      some ⟨[serverInfoVuln "http://t" ⟨some 200, "text/html", "nginx", "Home"⟩],
        ⟨0, 0, 0, 0, 1⟩⟩ := by
  decide

/-- Environment for the C2 counterexample: probe reports the target
unreachable and the `HEAD` fallback fails too. -/
def envC2x : EnvV2 :=
  { baseEnvV2 with httpx := some ⟨false, []⟩, fallbackFetch := none }

set_option maxRecDepth 200000 in
/-- C2 counterexample: in the scanner.ts variant a totally failed Validate
stage aborts the pipeline — the shallow scan against the unreachable target
ends `failed`, not `completed`, with no informational finding recorded. -/
theorem C2_counterexample :
    (performScanV2 envC2x "http://t" "t" "shallow").exit = RunExit.errorCaught ∧
    lastStatusOf (performScanV2 envC2x "http://t" "t" "shallow").events =
      some ScanStatus.failed ∧
    ¬ lastStatusOf (performScanV2 envC2x "http://t" "t" "shallow").events =
      some ScanStatus.completed ∧
    createdOf (performScanV2 envC2x "http://t" "t" "shallow").events = [] := by
  decide

/-- Environment for the C5 counterexample: the ZAP daemon accepts the scan
and reports 90% progress (mapped to 85), then the poll budget is exhausted
(timeout); the `zapError` guard restarts the 45→90 animation at 45. -/
def envC5x : EnvV1 :=
  { baseEnvV1 with zapReady1 := true, zap := ⟨true, true, [some 90], []⟩ }

/-- Executable non-decreasingness check for a write sequence. -/
def nondecreasing : List Nat → Bool
  | [] => true
  | [_] => true
  | a :: b :: rest => decide (a ≤ b) && nondecreasing (b :: rest)

theorem nondecreasing_iff_chain (l : List Nat) :
    nondecreasing l = true ↔ List.Chain' (fun a b : Nat => a ≤ b) l := by
  induction l with
  | nil => simp [nondecreasing]
  | cons a l ih =>
    cases l with
    | nil => simp [nondecreasing]
    | cons b l =>
      rw [nondecreasing, List.chain'_cons, Bool.and_eq_true, decide_eq_true_eq]
      exact and_congr_right (fun _ => ih)

/-! ### Trace-shape lemmas -/

theorem createdOf_append (a b : List Event) :
    createdOf (a ++ b) = createdOf a ++ createdOf b := List.filterMap_append a b _

theorem statusOf_append (a b : List Event) :
    statusOf (a ++ b) = statusOf a ++ statusOf b := List.filterMap_append a b _

theorem progOf_append (a b : List Event) :
    progOf (a ++ b) = progOf a ++ progOf b := List.filterMap_append a b _

/-- The trace grew by a block `Δ` that persists no finding, writes no
status, and whose progress writes are a sublist of `ideal`. -/
def EmitsQ (ideal : List Nat) (s s' : St) : Prop :=
  ∃ Δ, s'.events = s.events ++ Δ ∧ createdOf Δ = [] ∧ statusOf Δ = [] ∧
    List.Sublist (progOf Δ) ideal

theorem EmitsQ_rfl (ideal : List Nat) (s : St) : EmitsQ ideal s s :=
  ⟨[], by simp, rfl, rfl, by simp [progOf]⟩

theorem EmitsQ_trans {i1 i2 : List Nat} {s1 s2 s3 : St}
    (h1 : EmitsQ i1 s1 s2) (h2 : EmitsQ i2 s2 s3) : EmitsQ (i1 ++ i2) s1 s3 := by
  obtain ⟨d1, he1, hc1, hs1, hp1⟩ := h1
  obtain ⟨d2, he2, hc2, hs2, hp2⟩ := h2
  refine ⟨d1 ++ d2, ?_, ?_, ?_, ?_⟩
  · rw [he2, he1, List.append_assoc]
  · rw [createdOf_append, hc1, hc2]; rfl
  · rw [statusOf_append, hs1, hs2]; rfl
  · rw [progOf_append]; exact List.Sublist.append hp1 hp2

theorem EmitsQ_mono {i j : List Nat} {s s' : St} (h : EmitsQ i s s')
    (hij : List.Sublist i j) : EmitsQ j s s' := by
  obtain ⟨d, he, hc, hs, hp⟩ := h
  exact ⟨d, he, hc, hs, hp.trans hij⟩

theorem EmitsQ_of_events_eq {ideal : List Nat} {s s' : St}
    (h : s'.events = s.events) : EmitsQ ideal s s' :=
  ⟨[], by simp [h], rfl, rfl, by simp [progOf]⟩

/-- State reached by a step, whether it succeeded or raised. -/
@[reducible] def exSt {α : Type} (f : α → St) : Except (Err × St) α → St
  | Except.ok x => f x
  | Except.error e => e.2

theorem emits_bind {i1 i2 : List Nat} {s : St} {r : Except (Err × St) St}
    {g : St → Except (Err × St) St}
    (hr : EmitsQ i1 s (exSt id r))
    (hg : ∀ s1, r = Except.ok s1 → EmitsQ i2 s1 (exSt id (g s1))) :
    EmitsQ (i1 ++ i2) s (exSt id (r >>= g)) := by
  cases r with
  | ok s1 =>
      show EmitsQ (i1 ++ i2) s (exSt id (g s1))
      exact EmitsQ_trans (hr) (hg s1 rfl)
  | error e =>
      exact EmitsQ_mono hr (List.sublist_append_left i1 i2)

theorem checkAbort_emits (a : Option Nat) (s : St) :
    EmitsQ [] s (exSt id (checkAbort a s)) := by
  show EmitsQ [] s (exSt id
    (if flagAt a s.ticks = true then
      Except.error (Err.cancel, ⟨s.ticks + 1, s.upd, s.events, s.vulns⟩)
    else Except.ok ⟨s.ticks + 1, s.upd, s.events, s.vulns⟩))
  split
  · exact EmitsQ_of_events_eq rfl
  · exact EmitsQ_of_events_eq rfl

theorem updScan_emits {fu : Nat → Bool} {p : Nat} {s : St} :
    EmitsQ [p] s (exSt id (updScan fu { progress := some p } s)) := by
  unfold updScan
  split
  · exact EmitsQ_of_events_eq rfl
  · exact ⟨[Event.updateScan { progress := some p }], rfl, rfl, rfl, by
      simp [progOf]⟩

theorem updScanNoAwait_emits {fu : Nat → Bool} {p : Nat} {s : St} :
    EmitsQ [p] s (updScanNoAwait fu { progress := some p } s) := by
  unfold updScanNoAwait
  split
  · exact EmitsQ_of_events_eq rfl
  · exact ⟨[Event.updateScan { progress := some p }], rfl, rfl, rfl, by
      simp [progOf]⟩

theorem pushVuln_emits (v : Vuln) (s : St) (ideal : List Nat) :
    EmitsQ ideal s (pushVuln v s) :=
  ⟨[], by simp [pushVuln], rfl, rfl, by simp [progOf]⟩

theorem emit_tool_emits (e : Event) (s : St) (ideal : List Nat)
    (hc : createdOf [e] = []) (hs : statusOf [e] = []) (hp : progOf [e] = []) :
    EmitsQ ideal s (emit e s) :=
  ⟨[e], rfl, hc, hs, by rw [hp]; simp⟩

theorem smoothGo_emits (a : Option Nat) (fu : Nat → Bool) (f t : Nat) :
    ∀ (l : List Nat) (s : St),
      EmitsQ (l.map (smoothVal f t)) s (exSt id (smoothGo a fu f t l s)) := by
  intro l
  induction l with
  | nil => intro s; exact EmitsQ_of_events_eq rfl
  | cons i rest ih =>
    intro s
    show EmitsQ _ s (exSt id (do
      let s ← checkAbort a s
      let s ← updScan fu { progress := some (smoothVal f t i) } s
      smoothGo a fu f t rest s))
    rw [show ((i :: rest).map (smoothVal f t)) =
      ([] : List Nat) ++ ([smoothVal f t i] ++ rest.map (smoothVal f t)) by simp]
    exact emits_bind (checkAbort_emits a s) (fun s1 _ =>
      emits_bind updScan_emits (fun s2 _ => ih s2))

/-- The full write sequence of one `updateProgressSmooth f t` call. -/
def smoothVals (f t : Nat) : List Nat := (List.range 21).map (smoothVal f t) ++ [t]

theorem updateProgressSmooth_emits (a : Option Nat) (fu : Nat → Bool) (f t : Nat)
    (s : St) : EmitsQ (smoothVals f t) s (exSt id (updateProgressSmooth a fu f t s)) := by
  show EmitsQ _ s (exSt id (do
    let s ← smoothGo a fu f t (List.range 21) s
    updScan fu { progress := some t } s))
  exact emits_bind (smoothGo_emits a fu f t (List.range 21) s)
    (fun s1 _ => updScan_emits)

/-- The mapped progress values the poll loop reports, in order, up to and
including the first 100% report. -/
def pollMapped (lo span : Nat) : List (Option Nat) → List Nat
  | [] => []
  | none :: rest => pollMapped lo span rest
  | some p :: rest =>
      (lo + p * span / 100) :: (if p = 100 then [] else pollMapped lo span rest)

theorem zapWaitGo_emits (a : Option Nat) (fu : Nat → Bool) (lo span : Nat) :
    ∀ (polls : List (Option Nat)) (lastP : Nat) (s : St),
      EmitsQ (pollMapped lo span polls) s
        (exSt Prod.snd (zapWaitGo a fu lo span polls lastP s)) := by
  intro polls
  induction polls with
  | nil => intro lastP s; exact EmitsQ_of_events_eq rfl
  | cons poll rest ih =>
    intro lastP s
    by_cases hb : flagAt a s.ticks = true
    · rw [zapWaitGo.eq_def]
      dsimp only
      rw [if_pos hb]
      exact EmitsQ_of_events_eq rfl
    · rw [zapWaitGo.eq_def]
      dsimp only
      rw [if_neg hb]
      cases poll with
      | none =>
        rw [pollMapped]
        exact @EmitsQ_trans [] _ _ _ _ (EmitsQ_of_events_eq rfl)
          (ih lastP { s with ticks := s.ticks + 1 })
      | some p =>
        dsimp only
        by_cases hp : p = 100
        · rw [if_pos hp, pollMapped, if_pos hp]
          exact EmitsQ_mono
            (@EmitsQ_trans [] [lo + p * span / 100] _ _ _
              (EmitsQ_of_events_eq rfl) updScanNoAwait_emits)
            (by simp)
        · rw [if_neg hp, pollMapped, if_neg hp]
          exact @EmitsQ_trans [lo + p * span / 100] _ _ _ _
            (@EmitsQ_trans [] [lo + p * span / 100] _ _ _
              (@EmitsQ_of_events_eq _ _ { s with ticks := s.ticks + 1 } rfl)
              updScanNoAwait_emits)
            (ih (lo + p * span / 100)
              (updScanNoAwait fu { progress := some (lo + p * span / 100) }
                { s with ticks := s.ticks + 1 }))

theorem zapWaitGo_ok_val (a : Option Nat) (fu : Nat → Bool) (lo span : Nat) :
    ∀ (polls : List (Option Nat)) (lastP : Nat) (s : St) (r : Nat × St),
      zapWaitGo a fu lo span polls lastP s = Except.ok r →
      r.1 = lo + 100 * span / 100 := by
  intro polls
  induction polls with
  | nil => intro lastP s r h; exact absurd h (by rw [zapWaitGo]; simp)
  | cons poll rest ih =>
    intro lastP s r h
    rw [zapWaitGo.eq_def] at h
    dsimp only at h
    split at h
    · exact absurd h (by simp)
    · cases poll with
      | none => exact ih _ _ _ h
      | some p =>
        dsimp only at h
        split at h
        · rename_i hp
          rw [Except.ok.injEq] at h
          rw [← h, hp]
        · exact ih _ _ _ h

theorem zapPerformScan_emits (a : Option Nat) (fu : Nat → Bool) (lo span : Nat)
    (z : ZapEnv) (s : St) :
    EmitsQ (pollMapped lo span z.polls) s
      (exSt (fun r => r.2.2) (zapPerformScan a fu lo span z s)) := by
  unfold zapPerformScan
  split
  · exact EmitsQ_of_events_eq rfl
  · split
    · exact EmitsQ_of_events_eq rfl
    · have h := zapWaitGo_emits a fu lo span z.polls lo s
      cases hz : zapWaitGo a fu lo span z.polls lo s with
      | ok r =>
          rw [hz] at h
          exact h
      | error e =>
          rw [hz] at h
          exact h

theorem zapPerformScan_ok_val (a : Option Nat) (fu : Nat → Bool) (lo span : Nat)
    (z : ZapEnv) (s : St) (r : Nat × List Vuln × St)
    (h : zapPerformScan a fu lo span z s = Except.ok r) :
    r.1 = lo + 100 * span / 100 ∧ r.2.1 = convertAlertsToVulnerabilities z.alerts := by
  unfold zapPerformScan at h
  split at h
  · exact absurd h (by simp)
  · split at h
    · exact absurd h (by simp)
    · cases hz : zapWaitGo a fu lo span z.polls lo s with
      | ok w =>
          rw [hz] at h
          have h2 : (Except.ok (w.1, convertAlertsToVulnerabilities z.alerts, w.2) :
              Except (Err × St) (Nat × List Vuln × St)) = Except.ok r := h
          rw [Except.ok.injEq] at h2
          constructor
          · rw [← h2]; exact zapWaitGo_ok_val a fu lo span z.polls lo s w hz
          · rw [← h2]
      | error e =>
          rw [hz] at h
          have h2 : (Except.error e : Except (Err × St) (Nat × List Vuln × St)) =
              Except.ok r := h
          exact Except.noConfusion h2

/-- The progress writes of the guarded stage-4 body in variant 1. -/
def zapIdealV1 (env : EnvV1) : List Nat :=
  if env.zapReady1 then pollMapped 45 45 env.zap.polls else smoothVals 45 90

theorem foldl_pushVuln_events (l : List Vuln) :
    ∀ s : St, (l.foldl (fun s v => pushVuln v s) s).events = s.events := by
  induction l with
  | nil => intro s; rfl
  | cons v l ih => intro s; rw [List.foldl_cons]; exact ih (pushVuln v s)

theorem foldl_pushf_events {β : Type} (g : β → Vuln) (l : List β) :
    ∀ s : St, (l.foldl (fun s v => pushVuln (g v) s) s).events = s.events := by
  induction l with
  | nil => intro s; rfl
  | cons v l ih => intro s; rw [List.foldl_cons]; exact ih (pushVuln (g v) s)

theorem zapTryV1_emits (env : EnvV1) (s : St) :
    EmitsQ (zapIdealV1 env) s (exSt (fun r => r.2) (zapTryV1 env s)) := by
  unfold zapTryV1 zapIdealV1
  by_cases hr : env.zapReady1
  · rw [if_pos hr, if_neg (by simp [hr])]
    cases hzp : zapPerformScan env.abortAt env.failUpd 45 45 env.zap s with
    | ok r =>
        have hv := zapPerformScan_ok_val env.abortAt env.failUpd 45 45 env.zap s r hzp
        have hlt : ¬ r.1 < 90 := by rw [hv.1]; omega
        have h := zapPerformScan_emits env.abortAt env.failUpd 45 45 env.zap s
        rw [hzp] at h
        show EmitsQ _ s (exSt (fun r : List Vuln × St => r.2)
          (if r.1 < 90 then (do
              let s2 ← updateProgressSmooth env.abortAt env.failUpd r.1 90 r.2.2
              Except.ok (r.2.1, s2))
            else Except.ok (r.2.1, r.2.2)))
        rw [if_neg hlt]
        exact h
    | error e =>
        have h := zapPerformScan_emits env.abortAt env.failUpd 45 45 env.zap s
        rw [hzp] at h
        exact h
  · rw [if_neg hr, if_pos (by simp [hr])]
    have h := updateProgressSmooth_emits env.abortAt env.failUpd 45 90 s
    cases hsm : updateProgressSmooth env.abortAt env.failUpd 45 90 s with
    | ok s1 =>
        rw [hsm] at h
        exact h
    | error e =>
        rw [hsm] at h
        exact h

theorem stage1V1_emits (env : EnvV1) (u : String) (s : St) :
    EmitsQ (smoothVals 0 10) s (exSt id (stage1V1 env u s)) := by
  have h : EmitsQ ([] ++ (smoothVals 0 10 ++ [])) s (exSt id (stage1V1 env u s)) := by
    unfold stage1V1
    refine emits_bind (checkAbort_emits _ _) (fun s1 _ => ?_)
    refine emits_bind (updateProgressSmooth_emits _ _ _ _ _) (fun s2 _ => ?_)
    cases env.httpx with
    | some r =>
        dsimp only
        split
        · exact pushVuln_emits _ _ _
        · exact pushVuln_emits _ _ _
    | none => exact pushVuln_emits _ _ _
  simpa using h

theorem stage2V1_emits (env : EnvV1) (hn ty : String) (s : St) :
    EmitsQ (smoothVals 10 30) s (exSt id (stage2V1 env hn ty s)) := by
  have h : EmitsQ ([] ++ (smoothVals 10 30 ++ [])) s (exSt id (stage2V1 env hn ty s)) := by
    unfold stage2V1
    refine emits_bind (checkAbort_emits _ _) (fun s1 _ => ?_)
    split
    · have h2 := updateProgressSmooth_emits env.abortAt env.failUpd 10 30 s1
      exact EmitsQ_mono h2 (List.sublist_append_left _ _)
    · refine emits_bind (updateProgressSmooth_emits _ _ _ _ _) (fun s2 _ => ?_)
      cases env.nmap with
      | some r =>
          dsimp only
          split
          · exact @EmitsQ_trans [] [] _ _ _
              (emit_tool_emits Event.toolNmap s2 [] rfl rfl rfl)
              (pushVuln_emits _ _ _)
          · exact emit_tool_emits Event.toolNmap s2 [] rfl rfl rfl
      | none => exact emit_tool_emits Event.toolNmap s2 [] rfl rfl rfl
  simpa using h

theorem stage3V1_emits (env : EnvV1) (u ty : String) (s : St) :
    EmitsQ (smoothVals 30 45) s (exSt id (stage3V1 env u ty s)) := by
  have h : EmitsQ ([] ++ (smoothVals 30 45 ++ [])) s (exSt id (stage3V1 env u ty s)) := by
    unfold stage3V1
    refine emits_bind (checkAbort_emits _ _) (fun s1 _ => ?_)
    split
    · have h2 := updateProgressSmooth_emits env.abortAt env.failUpd 30 45 s1
      exact EmitsQ_mono h2 (List.sublist_append_left _ _)
    · refine emits_bind (updateProgressSmooth_emits _ _ _ _ _) (fun s2 _ => ?_)
      cases env.nikto with
      | some r =>
          dsimp only
          refine @EmitsQ_trans [] [] _ _ _
            (emit_tool_emits Event.toolNikto s2 [] rfl rfl rfl) ?_
          exact EmitsQ_of_events_eq
            (foldl_pushf_events (niktoVuln env.resolveUrl u) r.vulnerabilities
              (emit Event.toolNikto s2))
      | none => exact emit_tool_emits Event.toolNikto s2 [] rfl rfl rfl
  simpa using h

theorem zapGuardedV1_emits (env : EnvV1) (s : St) :
    EmitsQ (zapIdealV1 env ++ smoothVals 45 90) s
      (exSt (fun r => r.2) (zapGuardedV1 env s)) := by
  unfold zapGuardedV1
  have hzt := zapTryV1_emits env s
  cases hz : zapTryV1 env s with
  | ok r =>
      rw [hz] at hzt
      have hzt' : EmitsQ (zapIdealV1 env) s r.2 := hzt
      dsimp only
      exact EmitsQ_mono hzt' (List.sublist_append_left _ _)
  | error e =>
      rw [hz] at hzt
      have hzt' : EmitsQ (zapIdealV1 env) s e.2 := hzt
      cases e with
      | mk err es =>
          cases err with
          | cancel =>
              dsimp only
              exact EmitsQ_mono hzt' (List.sublist_append_left _ _)
          | other =>
              dsimp only
              have hsm := updateProgressSmooth_emits env.abortAt env.failUpd 45 90 es
              cases hs2 : updateProgressSmooth env.abortAt env.failUpd 45 90 es with
              | ok s2 =>
                  rw [hs2] at hsm
                  have hsm' : EmitsQ (smoothVals 45 90) es s2 := hsm
                  dsimp only
                  exact EmitsQ_trans hzt' hsm'
              | error e2 =>
                  rw [hs2] at hsm
                  have hsm' : EmitsQ (smoothVals 45 90) es e2.2 := hsm
                  dsimp only
                  exact EmitsQ_trans hzt' hsm'

theorem stage4V1_emits (env : EnvV1) (u : String) (s : St) :
    EmitsQ (zapIdealV1 env ++ smoothVals 45 90) s (exSt id (stage4V1 env u s)) := by
  unfold stage4V1
  have h0 := checkAbort_emits env.abortAt s
  cases hca : checkAbort env.abortAt s with
  | error e =>
      rw [hca] at h0
      have h0' : EmitsQ [] s e.2 := h0
      dsimp only
      exact EmitsQ_mono h0' (List.nil_sublist _)
  | ok s1 =>
      rw [hca] at h0
      have h0' : EmitsQ [] s s1 := h0
      dsimp only
      have hg := zapGuardedV1_emits env s1
      cases hz : zapGuardedV1 env s1 with
      | ok r =>
          rw [hz] at hg
          have hg' : EmitsQ (zapIdealV1 env ++ smoothVals 45 90) s1 r.2 := hg
          have htail : EmitsQ [] r.2 ((r.1.map (fun v =>
              if v.affectedUrl = "" then { v with affectedUrl := u } else v)).foldl
                (fun s v => pushVuln v s) r.2) :=
            EmitsQ_of_events_eq (foldl_pushVuln_events _ _)
          have hall := EmitsQ_trans (EmitsQ_trans h0' hg') htail
          dsimp only
          exact EmitsQ_mono hall (by simp)
      | error e =>
          rw [hz] at hg
          have hg' : EmitsQ (zapIdealV1 env ++ smoothVals 45 90) s1 e.2 := hg
          have hall := EmitsQ_trans h0' hg'
          dsimp only
          exact EmitsQ_mono hall (by simp)

/-! ### Exception-path decomposition -/

theorem exbind_ok {α β : Type} (a : α) (f : α → Except (Err × St) β) :
    (Except.ok a : Except (Err × St) α) >>= f = f a := rfl

theorem exbind_error {α β : Type} (e : Err × St) (f : α → Except (Err × St) β) :
    (Except.error e : Except (Err × St) α) >>= f =
      (Except.error e : Except (Err × St) β) := rfl

theorem exbind_err_elim {α β : Type} {r : Except (Err × St) α}
    {f : α → Except (Err × St) β} {e : Err × St}
    (h : r >>= f = Except.error e) :
    r = Except.error e ∨ ∃ a, r = Except.ok a ∧ f a = Except.error e := by
  cases r with
  | ok a => exact Or.inr ⟨a, rfl, h⟩
  | error e0 =>
      rw [exbind_error, Except.error.injEq] at h
      exact Or.inl (by rw [h])

theorem updScan_error {fu : Nat → Bool} {u : ScanUpdate} {s : St} {e : Err × St}
    (h : updScan fu u s = Except.error e) :
    e.1 = Err.other ∧ e.2.events = s.events := by
  unfold updScan at h
  split at h
  · rw [Except.error.injEq] at h
    rw [← h]
    exact ⟨rfl, rfl⟩
  · exact Except.noConfusion h

theorem updScan_ok {fu : Nat → Bool} {u : ScanUpdate} {s s' : St}
    (h : updScan fu u s = Except.ok s') :
    s'.events = s.events ++ [Event.updateScan u] := by
  unfold updScan at h
  split at h
  · exact Except.noConfusion h
  · rw [Except.ok.injEq] at h
    rw [← h]

theorem checkAbort_error {a : Option Nat} {s : St} {e : Err × St}
    (h : checkAbort a s = Except.error e) :
    e.1 = Err.cancel ∧ e.2.events = s.events := by
  simp only [checkAbort] at h
  split at h
  · rw [Except.error.injEq] at h
    rw [← h]
    exact ⟨rfl, rfl⟩
  · exact Except.noConfusion h

theorem checkAbort_ok {a : Option Nat} {s s' : St}
    (h : checkAbort a s = Except.ok s') : s'.events = s.events := by
  simp only [checkAbort] at h
  split at h
  · exact Except.noConfusion h
  · rw [Except.ok.injEq] at h
    rw [← h]
    rfl

/-- The trace grew only by events that persist no finding and write no
status. -/
def Quiet (s s' : St) : Prop :=
  ∃ Δ, s'.events = s.events ++ Δ ∧ createdOf Δ = [] ∧ statusOf Δ = []

theorem Quiet_of_EmitsQ {i : List Nat} {s s' : St} (h : EmitsQ i s s') :
    Quiet s s' := by
  obtain ⟨Δ, he, hc, hs, _⟩ := h
  exact ⟨Δ, he, hc, hs⟩

theorem Quiet_trans {s1 s2 s3 : St} (h1 : Quiet s1 s2) (h2 : Quiet s2 s3) :
    Quiet s1 s3 := by
  obtain ⟨d1, he1, hc1, hs1⟩ := h1
  obtain ⟨d2, he2, hc2, hs2⟩ := h2
  refine ⟨d1 ++ d2, ?_, ?_, ?_⟩
  · rw [he2, he1, List.append_assoc]
  · rw [createdOf_append, hc1, hc2]; rfl
  · rw [statusOf_append, hs1, hs2]; rfl

theorem Quiet_err {i : List Nat} {s : St} {r : Except (Err × St) St} {e : Err × St}
    (hr : EmitsQ i s (exSt id r)) (he : r = Except.error e) : Quiet s e.2 := by
  subst he
  exact Quiet_of_EmitsQ hr

theorem Quiet_ok {i : List Nat} {s : St} {r : Except (Err × St) St} {s1 : St}
    (hr : EmitsQ i s (exSt id r)) (he : r = Except.ok s1) : Quiet s s1 := by
  subst he
  exact Quiet_of_EmitsQ hr

/-- A cancellation raised by `finalizeV1` comes from the 90→100 animation,
before any finding is persisted and before the terminal update. -/
theorem finalizeV1_cancel {env : EnvV1} {s s' : St}
    (h : finalizeV1 env s = Except.error (Err.cancel, s')) : Quiet s s' := by
  unfold finalizeV1 at h
  rcases exbind_err_elim h with hsm | ⟨s1, hsm, h2⟩
  · have hq := updateProgressSmooth_emits env.abortAt env.failUpd 90 100 s
    rw [hsm] at hq
    exact Quiet_of_EmitsQ hq
  · rcases exbind_err_elim h2 with hup | ⟨s2, _, h3⟩
    · exact absurd (updScan_error hup).1 (fun hc => Err.noConfusion hc)
    · exact Except.noConfusion h3

theorem cancel_assemble {s s1 s2 s' : St} {u : ScanUpdate}
    (e0 : s1.events = s.events ++ [Event.updateScan u]) (e1 : s2.events = s1.events)
    (hq : Quiet s2 s') (hu : statusOf [Event.updateScan u] = [ScanStatus.running]) :
    ∃ Δ, s'.events = s.events ++ Δ ∧ createdOf Δ = [] ∧
      (statusOf Δ = [] ∨ statusOf Δ = [ScanStatus.running]) := by
  obtain ⟨Δq, he, hc, hs⟩ := hq
  refine ⟨[Event.updateScan u] ++ Δq, ?_, ?_, Or.inr ?_⟩
  · rw [he, e1, e0, List.append_assoc]
  · rw [createdOf_append, hc]
    rfl
  · rw [statusOf_append, hs, List.append_nil, hu]

/-- A cancellation raised by the guarded pipeline body leaves a trace that
extends the entry trace by the initial `running` update and write events
only: no `createVulnerability` and no further status. -/
theorem tryBodyV1_cancel {env : EnvV1} {tu hn ty : String} {s s' : St}
    (h : tryBodyV1 env tu hn ty s = Except.error (Err.cancel, s')) :
    ∃ Δ, s'.events = s.events ++ Δ ∧ createdOf Δ = [] ∧
      (statusOf Δ = [] ∨ statusOf Δ = [ScanStatus.running]) := by
  unfold tryBodyV1 at h
  rcases exbind_err_elim h with h0 | ⟨s1, h0, h⟩
  · exact absurd (updScan_error h0).1 (fun hc => Err.noConfusion hc)
  · have e0 := updScan_ok h0
    rcases exbind_err_elim h with h1 | ⟨s2, h1, h⟩
    · refine ⟨[Event.updateScan { status := some ScanStatus.running, progress := some 0 }],
        ?_, rfl, Or.inr rfl⟩
      rw [(checkAbort_error h1).2, e0]
    · have e1 := checkAbort_ok h1
      have hq : Quiet s2 s' := by
        rcases exbind_err_elim h with h2 | ⟨s3, h2, h⟩
        · exact Quiet_err (stage1V1_emits env tu s2) h2
        · have q1 := Quiet_ok (stage1V1_emits env tu s2) h2
          rcases exbind_err_elim h with h3 | ⟨s4, h3, h⟩
          · exact Quiet_trans q1 (Quiet_err (stage2V1_emits env hn ty s3) h3)
          · have q2 := Quiet_ok (stage2V1_emits env hn ty s3) h3
            rcases exbind_err_elim h with h4 | ⟨s5, h4, h⟩
            · exact Quiet_trans q1 (Quiet_trans q2
                (Quiet_err (stage3V1_emits env tu ty s4) h4))
            · have q3 := Quiet_ok (stage3V1_emits env tu ty s4) h4
              rcases exbind_err_elim h with h5 | ⟨s6, h5, h⟩
              · exact Quiet_trans q1 (Quiet_trans q2 (Quiet_trans q3
                  (Quiet_err (stage4V1_emits env tu s5) h5)))
              · have q4 := Quiet_ok (stage4V1_emits env tu s5) h5
                exact Quiet_trans q1 (Quiet_trans q2 (Quiet_trans q3
                  (Quiet_trans q4 (finalizeV1_cancel h))))
      exact cancel_assemble e0 e1 hq rfl

theorem statusOf_upd_cancel :
    statusOf [Event.updateScan cancelUpdateV1] = [ScanStatus.cancelled] := rfl

theorem progOf_upd_cancel : progOf [Event.updateScan cancelUpdateV1] = [] := rfl

/-- C3: whenever a variant-1 run ends through the cancellation handler, the
record's final status is `cancelled`, no finding gathered during the run was
persisted (`createVulnerability` is never called), the returned aggregate is
empty with zeroed counters, and the terminal update carries no progress
value: the trace ends with the `cancelled` update and its progress writes
are exactly those made before the handler ran (never forced to 100). -/
theorem C3_cancellation (env : EnvV1) (tu hn ty : String)
    (h : (performScanV1 env tu hn ty).exit = RunExit.cancelledCaught) :
    lastStatusOf (performScanV1 env tu hn ty).events = some ScanStatus.cancelled ∧
    createdOf (performScanV1 env tu hn ty).events = [] ∧
    (performScanV1 env tu hn ty).result = some ⟨[], ⟨0, 0, 0, 0, 0⟩⟩ ∧
    cancelUpdateV1.progress = none ∧
    ∃ pre, (performScanV1 env tu hn ty).events = pre ++ [Event.updateScan cancelUpdateV1] ∧
      progOf (performScanV1 env tu hn ty).events = progOf pre := by
  unfold performScanV1 at h ⊢
  cases ht : tryBodyV1 env tu hn ty ⟨0, 0, [], []⟩ with
  | ok r =>
      obtain ⟨ded, s0⟩ := r
      rw [ht] at h
      dsimp only at h
      exact absurd h (fun hc => RunExit.noConfusion hc)
  | error e =>
      obtain ⟨err, s0⟩ := e
      cases err with
      | other =>
          rw [ht] at h
          dsimp only at h
          cases hu : updScan env.failUpd
              (errorUpdateV1 (deduplicateVulnerabilities s0.vulns).1) s0 with
          | ok s1 =>
              rw [hu] at h
              dsimp only at h
              exact absurd h (fun hc => RunExit.noConfusion hc)
          | error e2 =>
              rw [hu] at h
              dsimp only at h
              exact absurd h (fun hc => RunExit.noConfusion hc)
      | cancel =>
          dsimp only
          cases hu : updScan env.failUpd cancelUpdateV1 s0 with
          | error e2 =>
              rw [ht] at h
              dsimp only at h
              rw [hu] at h
              dsimp only at h
              exact absurd h (fun hc => RunExit.noConfusion hc)
          | ok s1 =>
              dsimp only
              have e1 := updScan_ok hu
              obtain ⟨Δ, he, hc, hs⟩ := tryBodyV1_cancel ht
              have he0 : s0.events = Δ := by rw [he]; rfl
              refine ⟨?_, ?_, rfl, rfl, s0.events, e1, ?_⟩
              · rw [lastStatusOf, e1, statusOf_append, statusOf_upd_cancel]
                exact List.getLast?_concat _
              · rw [e1, createdOf_append, he0, hc]
                rfl
              · rw [e1, progOf_append, progOf_upd_cancel, List.append_nil]

/-- A run cancelled at the very first abort-flag read. -/
def envC3w : EnvV1 := { baseEnvV1 with abortAt := some 0 }

set_option maxRecDepth 200000 in
theorem C3_witness :
    (performScanV1 envC3w "http://t" "t" "shallow").exit = RunExit.cancelledCaught ∧
    (lastStatusOf (performScanV1 envC3w "http://t" "t" "shallow").events =
        some ScanStatus.cancelled ∧
      createdOf (performScanV1 envC3w "http://t" "t" "shallow").events = [] ∧
      (performScanV1 envC3w "http://t" "t" "shallow").result =
        some ⟨[], ⟨0, 0, 0, 0, 0⟩⟩ ∧
      cancelUpdateV1.progress = none ∧
      ∃ pre, (performScanV1 envC3w "http://t" "t" "shallow").events =
          pre ++ [Event.updateScan cancelUpdateV1] ∧
        progOf (performScanV1 envC3w "http://t" "t" "shallow").events = progOf pre) :=
  ⟨by decide, C3_cancellation envC3w "http://t" "t" "shallow" (by decide)⟩

theorem foldl_emit_creates (l : List Vuln) :
    ∀ s : St, (l.foldl (fun s v => emit (Event.createVulnerability v) s) s).events =
      s.events ++ l.map Event.createVulnerability := by
  induction l with
  | nil => intro s; simp
  | cons v l ih =>
      intro s
      rw [List.foldl_cons, ih (emit (Event.createVulnerability v) s)]
      simp [emit]

theorem statusOf_creates (l : List Vuln) :
    statusOf (l.map Event.createVulnerability) = [] := by
  induction l with
  | nil => rfl
  | cons v l ih => simpa [statusOf, List.filterMap_cons] using ih

/-- C1: how the two variants actually handle an unexpected (non-cancellation)
error.  The part_000 variant's handler deduplicates what was gathered, writes
terminal status `completed` (not `failed`) with progress 100, persists every
surviving finding and returns the non-trivial aggregate; the scanner.ts
variant's handler writes terminal status `failed` with zeroed counters, no
progress and persists nothing. -/
theorem C1_unexpected_error (env1 : EnvV1) (env2 : EnvV2)
    (tu hn ty tu2 hn2 ty2 : String) :
    ((performScanV1 env1 tu hn ty).exit = RunExit.errorCaught →
      ∃ pre ded,
        (performScanV1 env1 tu hn ty).events =
          pre ++ [Event.updateScan (errorUpdateV1 ded)] ++
            ded.map Event.createVulnerability ∧
        (performScanV1 env1 tu hn ty).result = some ⟨ded, countsOf ded⟩ ∧
        lastStatusOf (performScanV1 env1 tu hn ty).events = some ScanStatus.completed ∧
        (errorUpdateV1 ded).progress = some 100 ∧
        ¬ lastStatusOf (performScanV1 env1 tu hn ty).events = some ScanStatus.failed) ∧
    ((performScanV2 env2 tu2 hn2 ty2).exit = RunExit.errorCaught →
      ∃ pre,
        (performScanV2 env2 tu2 hn2 ty2).events =
          pre ++ [Event.updateScan (catchUpdateV2 Err.other)] ∧
        (performScanV2 env2 tu2 hn2 ty2).result = some ⟨[], ⟨0, 0, 0, 0, 0⟩⟩ ∧
        lastStatusOf (performScanV2 env2 tu2 hn2 ty2).events = some ScanStatus.failed ∧
        createdOf (performScanV2 env2 tu2 hn2 ty2).events = createdOf pre ∧
        (catchUpdateV2 Err.other).progress = none) := by
  constructor
  · unfold performScanV1
    cases ht : tryBodyV1 env1 tu hn ty ⟨0, 0, [], []⟩ with
    | ok r =>
        obtain ⟨ded, s0⟩ := r
        dsimp only
        intro h
        exact absurd h (fun hc => RunExit.noConfusion hc)
    | error e =>
        obtain ⟨err, s0⟩ := e
        cases err with
        | cancel =>
            dsimp only
            cases hu : updScan env1.failUpd cancelUpdateV1 s0 with
            | ok s1 =>
                dsimp only
                intro h
                exact absurd h (fun hc => RunExit.noConfusion hc)
            | error e2 =>
                dsimp only
                intro h
                exact absurd h (fun hc => RunExit.noConfusion hc)
        | other =>
            dsimp only
            cases hu : updScan env1.failUpd
                (errorUpdateV1 (deduplicateVulnerabilities s0.vulns).1) s0 with
            | error e2 =>
                dsimp only
                intro h
                exact absurd h (fun hc => RunExit.noConfusion hc)
            | ok s1 =>
                dsimp only
                intro _
                refine ⟨s0.events, (deduplicateVulnerabilities s0.vulns).1, ?_, rfl, ?_, rfl, ?_⟩
                · rw [foldl_emit_creates, updScan_ok hu]
                · rw [lastStatusOf, foldl_emit_creates, updScan_ok hu,
                    statusOf_append, statusOf_creates, List.append_nil,
                    statusOf_append]
                  show ((statusOf s0.events ++ [ScanStatus.completed]).getLast? = _)
                  exact List.getLast?_concat _
                · rw [lastStatusOf, foldl_emit_creates, updScan_ok hu,
                    statusOf_append, statusOf_creates, List.append_nil,
                    statusOf_append]
                  show ¬ ((statusOf s0.events ++ [ScanStatus.completed]).getLast? =
                    some ScanStatus.failed)
                  rw [List.getLast?_concat]
                  intro hc
                  rw [Option.some.injEq] at hc
                  exact ScanStatus.noConfusion hc
  · unfold performScanV2
    cases ht : tryBodyV2 env2 tu2 hn2 ty2 ⟨0, 0, [], []⟩ with
    | ok r =>
        obtain ⟨vs, s0⟩ := r
        dsimp only
        intro h
        exact absurd h (fun hc => RunExit.noConfusion hc)
    | error e =>
        obtain ⟨err, s0⟩ := e
        dsimp only
        cases hu : updScan env2.failUpd (catchUpdateV2 err) s0 with
        | error e2 =>
            dsimp only
            intro h
            exact absurd h (fun hc => RunExit.noConfusion hc)
        | ok s1 =>
            dsimp only
            cases err with
            | cancel =>
                intro h
                exact absurd h (fun hc => RunExit.noConfusion hc)
            | other =>
                intro _
                refine ⟨s0.events, updScan_ok hu, rfl, ?_, ?_, rfl⟩
                · rw [lastStatusOf, updScan_ok hu, statusOf_append]
                  show ((statusOf s0.events ++ [ScanStatus.failed]).getLast? = _)
                  exact List.getLast?_concat _
                · rw [updScan_ok hu, createdOf_append]
                  simp [createdOf]

set_option maxRecDepth 200000 in
theorem C1_witness :
    (performScanV1 envC1x "http://t" "t" "shallow").exit = RunExit.errorCaught ∧
    (performScanV2 envC2x "http://t" "t" "shallow").exit = RunExit.errorCaught ∧
    (∃ pre ded,
      (performScanV1 envC1x "http://t" "t" "shallow").events =
        pre ++ [Event.updateScan (errorUpdateV1 ded)] ++
          ded.map Event.createVulnerability ∧
      (performScanV1 envC1x "http://t" "t" "shallow").result =
        some ⟨ded, countsOf ded⟩ ∧
      lastStatusOf (performScanV1 envC1x "http://t" "t" "shallow").events =
        some ScanStatus.completed ∧
      (errorUpdateV1 ded).progress = some 100 ∧
      ¬ lastStatusOf (performScanV1 envC1x "http://t" "t" "shallow").events =
        some ScanStatus.failed) ∧
    (∃ pre,
      (performScanV2 envC2x "http://t" "t" "shallow").events =
        pre ++ [Event.updateScan (catchUpdateV2 Err.other)] ∧
      (performScanV2 envC2x "http://t" "t" "shallow").result =
        some ⟨[], ⟨0, 0, 0, 0, 0⟩⟩ ∧
      lastStatusOf (performScanV2 envC2x "http://t" "t" "shallow").events =
        some ScanStatus.failed ∧
      createdOf (performScanV2 envC2x "http://t" "t" "shallow").events = createdOf pre ∧
      (catchUpdateV2 Err.other).progress = none) :=
  ⟨by decide, by decide,
    (C1_unexpected_error envC1x envC2x "http://t" "t" "shallow"
      "http://t" "t" "shallow").1 (by decide),
    (C1_unexpected_error envC1x envC2x "http://t" "t" "shallow"
      "http://t" "t" "shallow").2 (by decide)⟩

/-! ### Clean-run evaluation (no cancellation, reliable storage) -/

theorem St_eq {s1 s2 : St} (ht : s1.ticks = s2.ticks) (hu : s1.upd = s2.upd)
    (he : s1.events = s2.events) (hv : s1.vulns = s2.vulns) : s1 = s2 := by
  obtain ⟨a, b, c, d⟩ := s1
  obtain ⟨a', b', c', d'⟩ := s2
  simp only at ht hu he hv
  rw [ht, hu, he, hv]

theorem checkAbort_clean (s : St) :
    checkAbort none s = Except.ok { s with ticks := s.ticks + 1 } := rfl

theorem updScan_clean (u : ScanUpdate) (s : St) :
    updScan (fun _ => false) u s =
      Except.ok
        { s with upd := s.upd + 1,
                 events := s.events ++ [Event.updateScan u] } := rfl

/-- The write events of one clean `updateProgressSmooth f t` call. -/
def smoothEvents (f t : Nat) : List Event :=
  (List.range 21).map (fun i => Event.updateScan { progress := some (smoothVal f t i) }) ++
    [Event.updateScan { progress := some t }]

theorem smoothGo_clean (f t : Nat) : ∀ (l : List Nat) (s : St),
    smoothGo none (fun _ => false) f t l s =
      Except.ok
        { s with ticks := s.ticks + l.length, upd := s.upd + l.length,
                 events := s.events ++
                 l.map (fun i => Event.updateScan { progress := some (smoothVal f t i) }) } := by
  intro l
  induction l with
  | nil =>
      intro s
      show Except.ok s = _
      simp
  | cons i rest ih =>
      intro s
      show (do
        let s1 ← checkAbort none s
        let s2 ← updScan (fun _ => false) { progress := some (smoothVal f t i) } s1
        smoothGo none (fun _ => false) f t rest s2) = _
      rw [checkAbort_clean, exbind_ok, updScan_clean, exbind_ok, ih]
      refine congrArg Except.ok (St_eq ?_ ?_ ?_ ?_) <;> simp <;> omega

theorem updateProgressSmooth_clean (f t : Nat) (s : St) :
    updateProgressSmooth none (fun _ => false) f t s =
      Except.ok
        { s with ticks := s.ticks + 21, upd := s.upd + 22,
                 events := s.events ++ smoothEvents f t } := by
  show (do
    let s1 ← smoothGo none (fun _ => false) f t (List.range 21) s
    updScan (fun _ => false) { progress := some t } s1) = _
  rw [smoothGo_clean, exbind_ok, updScan_clean]
  refine congrArg Except.ok (St_eq ?_ ?_ ?_ ?_) <;> simp [smoothEvents] <;> omega

/-- A variant-1 environment with no cancellation, reliable storage, a failed
probe and the ZAP daemon down; the tool services are arbitrary. -/
def cleanEnvV1 (nm : Option NmapRes) (nk : Option NiktoRes) (z : ZapEnv)
    (ru : String → String → String) : EnvV1 :=
  ⟨none, fun _ => false, none, nm, nk, false, z, ru⟩

theorem stage1V1_clean (nm : Option NmapRes) (nk : Option NiktoRes) (z : ZapEnv)
    (ru : String → String → String) (tu : String) (s : St) :
    stage1V1 (cleanEnvV1 nm nk z ru) tu s =
      Except.ok
        { s with ticks := s.ticks + 22, upd := s.upd + 22,
                 events := s.events ++ smoothEvents 0 10,
                 vulns := s.vulns ++ [preValidationVuln tu] } := by
  show (do
    let s1 ← checkAbort none s
    let s2 ← updateProgressSmooth none (fun _ => false) 0 10 s1
    Except.ok (pushVuln (preValidationVuln tu) s2)) = _
  rw [checkAbort_clean, exbind_ok, updateProgressSmooth_clean, exbind_ok]
  refine congrArg Except.ok ?_
  refine St_eq ?_ ?_ ?_ ?_ <;> simp [pushVuln] <;> omega

theorem stage2V1_clean (nm : Option NmapRes) (nk : Option NiktoRes) (z : ZapEnv)
    (ru : String → String → String) (hn : String) (s : St) :
    stage2V1 (cleanEnvV1 nm nk z ru) hn "shallow" s =
      Except.ok
        { s with ticks := s.ticks + 22, upd := s.upd + 22,
                 events := s.events ++ smoothEvents 10 30 } := by
  show (do
    let s1 ← checkAbort none s
    updateProgressSmooth none (fun _ => false) 10 30 s1) = _
  rw [checkAbort_clean, exbind_ok, updateProgressSmooth_clean]

theorem stage3V1_clean (nm : Option NmapRes) (nk : Option NiktoRes) (z : ZapEnv)
    (ru : String → String → String) (tu : String) (s : St) :
    stage3V1 (cleanEnvV1 nm nk z ru) tu "shallow" s =
      Except.ok
        { s with ticks := s.ticks + 22, upd := s.upd + 22,
                 events := s.events ++ smoothEvents 30 45 } := by
  show (do
    let s1 ← checkAbort none s
    updateProgressSmooth none (fun _ => false) 30 45 s1) = _
  rw [checkAbort_clean, exbind_ok, updateProgressSmooth_clean]

theorem zapTryV1_clean (nm : Option NmapRes) (nk : Option NiktoRes) (z : ZapEnv)
    (ru : String → String → String) (s : St) :
    zapTryV1 (cleanEnvV1 nm nk z ru) s =
      Except.ok (([] : List Vuln),
        { s with ticks := s.ticks + 21, upd := s.upd + 22,
                 events := s.events ++ smoothEvents 45 90 }) := by
  show (do
    let s1 ← updateProgressSmooth none (fun _ => false) 45 90 s
    Except.ok (([] : List Vuln), s1)) = _
  rw [updateProgressSmooth_clean, exbind_ok]

theorem zapGuardedV1_clean (nm : Option NmapRes) (nk : Option NiktoRes) (z : ZapEnv)
    (ru : String → String → String) (s : St) :
    zapGuardedV1 (cleanEnvV1 nm nk z ru) s =
      Except.ok (([] : List Vuln),
        { s with ticks := s.ticks + 21, upd := s.upd + 22,
                 events := s.events ++ smoothEvents 45 90 }) := by
  unfold zapGuardedV1
  rw [zapTryV1_clean]

theorem stage4V1_clean (nm : Option NmapRes) (nk : Option NiktoRes) (z : ZapEnv)
    (ru : String → String → String) (tu : String) (s : St) :
    stage4V1 (cleanEnvV1 nm nk z ru) tu s =
      Except.ok
        { s with ticks := s.ticks + 22, upd := s.upd + 22,
                 events := s.events ++ smoothEvents 45 90 } := by
  unfold stage4V1
  rw [show (cleanEnvV1 nm nk z ru).abortAt = none from rfl, checkAbort_clean]
  dsimp only
  rw [zapGuardedV1_clean]
  dsimp only
  refine congrArg Except.ok (St_eq ?_ ?_ ?_ ?_) <;> simp <;> omega

/-- The full trace of a clean shallow variant-1 run whose probe failed and
whose ZAP daemon is down. -/
def cleanTraceV1 (tu : String) : List Event :=
  [Event.updateScan { status := some ScanStatus.running, progress := some 0 }] ++
    smoothEvents 0 10 ++ smoothEvents 10 30 ++ smoothEvents 30 45 ++
    smoothEvents 45 90 ++ smoothEvents 90 100 ++
    [Event.createVulnerability (preValidationVuln tu),
     Event.updateScan (errorUpdateV1 [preValidationVuln tu]),
     Event.createReport]

theorem finalizeV1_clean (nm : Option NmapRes) (nk : Option NiktoRes) (z : ZapEnv)
    (ru : String → String → String) (tu : String) (tk up : Nat) (ev : List Event) :
    finalizeV1 (cleanEnvV1 nm nk z ru) ⟨tk, up, ev, [preValidationVuln tu]⟩ =
      Except.ok ([preValidationVuln tu],
        (⟨tk + 21, up + 23,
          ev ++ (smoothEvents 90 100 ++
            [Event.createVulnerability (preValidationVuln tu),
             Event.updateScan (errorUpdateV1 [preValidationVuln tu]),
             Event.createReport]), [preValidationVuln tu]⟩ : St)) := by
  show (do
    let s1 ← updateProgressSmooth none (fun _ => false) 90 100
      (⟨tk, up, ev, [preValidationVuln tu]⟩ : St)
    let s2 := [preValidationVuln tu].foldl
      (fun s v => emit (Event.createVulnerability v) s) s1
    let s3 ← updScan (fun _ => false) (errorUpdateV1 [preValidationVuln tu]) s2
    Except.ok ([preValidationVuln tu], emit Event.createReport s3)) = _
  rw [updateProgressSmooth_clean, exbind_ok]
  dsimp only [List.foldl]
  rw [updScan_clean, exbind_ok]
  refine congrArg Except.ok ?_
  refine congrArg (Prod.mk [preValidationVuln tu]) ?_
  refine St_eq ?_ ?_ ?_ ?_ <;> simp [emit] <;> omega

theorem tryBodyV1_clean (nm : Option NmapRes) (nk : Option NiktoRes) (z : ZapEnv)
    (ru : String → String → String) (tu hn : String) :
    tryBodyV1 (cleanEnvV1 nm nk z ru) tu hn "shallow" ⟨0, 0, [], []⟩ =
      Except.ok ([preValidationVuln tu],
        (⟨110, 112, cleanTraceV1 tu, [preValidationVuln tu]⟩ : St)) := by
  unfold tryBodyV1
  rw [show (cleanEnvV1 nm nk z ru).failUpd = (fun _ => false) from rfl,
    show (cleanEnvV1 nm nk z ru).abortAt = none from rfl,
    updScan_clean, exbind_ok, checkAbort_clean, exbind_ok,
    stage1V1_clean, exbind_ok, stage2V1_clean, exbind_ok,
    stage3V1_clean, exbind_ok, stage4V1_clean, exbind_ok]
  show finalizeV1 (cleanEnvV1 nm nk z ru)
    (⟨89, 89,
      [Event.updateScan { status := some ScanStatus.running, progress := some 0 }] ++
        smoothEvents 0 10 ++ smoothEvents 10 30 ++ smoothEvents 30 45 ++
        smoothEvents 45 90,
      [preValidationVuln tu]⟩ : St) = _
  rw [finalizeV1_clean]
  rfl

theorem performScanV1_clean_unreachable (nm : Option NmapRes) (nk : Option NiktoRes)
    (z : ZapEnv) (ru : String → String → String) (tu hn : String) :
    performScanV1 (cleanEnvV1 nm nk z ru) tu hn "shallow" =
      { events := cleanTraceV1 tu, exit := RunExit.finished,
        result := some ⟨[preValidationVuln tu], ⟨0, 0, 0, 0, 1⟩⟩ } := by
  unfold performScanV1
  rw [tryBodyV1_clean]
  rfl

/-- A variant-2 environment with no cancellation, reliable storage, the
probe reporting the target unreachable (folded to `none`) and the `HEAD`
fallback failing; the rest is arbitrary. -/
def cleanEnvV2 (nm2 : Option NmapRes) (nk2 : Option NiktoRes) (zr2 : Bool)
    (z2 : ZapEnv) (ru2 : String → String → String) : EnvV2 :=
  ⟨none, fun _ => false, none, none, nm2, nk2, zr2, z2, ru2⟩

/-- The full trace of a clean shallow variant-2 run against an unreachable
target: the fatal validation error ends it right after the first window. -/
def cleanTraceV2fail : List Event :=
  [Event.updateScan { status := some ScanStatus.running, progress := some 0 }] ++
    smoothEvents 0 15 ++ [Event.updateScan (catchUpdateV2 Err.other)]

theorem stage1V2_unreachable (nm2 : Option NmapRes) (nk2 : Option NiktoRes)
    (zr2 : Bool) (z2 : ZapEnv) (ru2 : String → String → String) (tu2 : String)
    (s : St) :
    stage1V2 (cleanEnvV2 nm2 nk2 zr2 z2 ru2) tu2 s =
      Except.error (Err.other,
        { s with ticks := s.ticks + 22, upd := s.upd + 22,
                 events := s.events ++ smoothEvents 0 15 }) := by
  show (do
    let s1 ← checkAbort none s
    let s2 ← updateProgressSmooth none (fun _ => false) 0 15 s1
    (Except.error (Err.other, s2) : Except (Err × St) St)) = _
  rw [checkAbort_clean, exbind_ok, updateProgressSmooth_clean, exbind_ok]

theorem tryBodyV2_unreachable (nm2 : Option NmapRes) (nk2 : Option NiktoRes)
    (zr2 : Bool) (z2 : ZapEnv) (ru2 : String → String → String) (tu2 hn2 : String) :
    tryBodyV2 (cleanEnvV2 nm2 nk2 zr2 z2 ru2) tu2 hn2 "shallow" ⟨0, 0, [], []⟩ =
      Except.error (Err.other,
        (⟨23, 23,
          [Event.updateScan { status := some ScanStatus.running, progress := some 0 }] ++
            smoothEvents 0 15, []⟩ : St)) := by
  unfold tryBodyV2
  rw [show (cleanEnvV2 nm2 nk2 zr2 z2 ru2).failUpd = (fun _ => false) from rfl,
    show (cleanEnvV2 nm2 nk2 zr2 z2 ru2).abortAt = none from rfl,
    updScan_clean, exbind_ok, checkAbort_clean, exbind_ok,
    stage1V2_unreachable, exbind_error]
  rfl

theorem performScanV2_clean_unreachable (nm2 : Option NmapRes)
    (nk2 : Option NiktoRes) (zr2 : Bool) (z2 : ZapEnv)
    (ru2 : String → String → String) (tu2 hn2 : String) :
    performScanV2 (cleanEnvV2 nm2 nk2 zr2 z2 ru2) tu2 hn2 "shallow" =
      { events := cleanTraceV2fail, exit := RunExit.errorCaught,
        result := some ⟨[], ⟨0, 0, 0, 0, 0⟩⟩ } := by
  unfold performScanV2
  rw [tryBodyV2_unreachable]
  rfl

set_option maxRecDepth 400000 in
/-- C2: what a totally failed Validate stage actually does in each variant.
In part_000 a probe failure — for any tool results, any ZAP environment with
the daemon down, any storage-reliable uncancelled run — only records the
pre-validation informational finding: the shallow scan still finishes with
terminal status `completed`, exactly that one informational finding
persisted and returned, and every severity count above info at zero.  In
scanner.ts the same situation (probe unreachable, fallback probe failing)
aborts the pipeline instead: terminal status `failed`, empty aggregate,
nothing persisted. -/
theorem C2_validate_failure_divergence
    (nm : Option NmapRes) (nk : Option NiktoRes) (z : ZapEnv)
    (ru : String → String → String) (tu hn : String)
    (nm2 : Option NmapRes) (nk2 : Option NiktoRes) (zr2 : Bool) (z2 : ZapEnv)
    (ru2 : String → String → String) (tu2 hn2 : String) :
    (performScanV1 (cleanEnvV1 nm nk z ru) tu hn "shallow").exit = RunExit.finished ∧
    (performScanV1 (cleanEnvV1 nm nk z ru) tu hn "shallow").result =
      some ⟨[preValidationVuln tu], ⟨0, 0, 0, 0, 1⟩⟩ ∧
    lastStatusOf (performScanV1 (cleanEnvV1 nm nk z ru) tu hn "shallow").events =
      some ScanStatus.completed ∧
    createdOf (performScanV1 (cleanEnvV1 nm nk z ru) tu hn "shallow").events =
      [preValidationVuln tu] ∧
    (performScanV2 (cleanEnvV2 nm2 nk2 zr2 z2 ru2) tu2 hn2 "shallow").exit =
      RunExit.errorCaught ∧
    (performScanV2 (cleanEnvV2 nm2 nk2 zr2 z2 ru2) tu2 hn2 "shallow").result =
      some ⟨[], ⟨0, 0, 0, 0, 0⟩⟩ ∧
    lastStatusOf (performScanV2 (cleanEnvV2 nm2 nk2 zr2 z2 ru2) tu2 hn2 "shallow").events =
      some ScanStatus.failed ∧
    createdOf (performScanV2 (cleanEnvV2 nm2 nk2 zr2 z2 ru2) tu2 hn2 "shallow").events =
      [] := by
  have h := performScanV1_clean_unreachable nm nk z ru tu hn
  have h2 := performScanV2_clean_unreachable nm2 nk2 zr2 z2 ru2 tu2 hn2
  refine ⟨by rw [h], by rw [h], by rw [h]; rfl, by rw [h]; rfl,
    by rw [h2], by rw [h2], by rw [h2]; rfl, by rw [h2]; rfl⟩

/-! ### Progress-only trace decomposition -/

/-- The trace grew by a block whose progress writes are a sublist of
`ideal` (status writes and persisted findings unconstrained). -/
def ProgQ (ideal : List Nat) (s s' : St) : Prop :=
  ∃ Δ, s'.events = s.events ++ Δ ∧ List.Sublist (progOf Δ) ideal

theorem ProgQ_of_EmitsQ {i : List Nat} {s s' : St} (h : EmitsQ i s s') :
    ProgQ i s s' := by
  obtain ⟨Δ, he, _, _, hp⟩ := h
  exact ⟨Δ, he, hp⟩

theorem ProgQ_trans {i1 i2 : List Nat} {s1 s2 s3 : St}
    (h1 : ProgQ i1 s1 s2) (h2 : ProgQ i2 s2 s3) : ProgQ (i1 ++ i2) s1 s3 := by
  obtain ⟨d1, he1, hp1⟩ := h1
  obtain ⟨d2, he2, hp2⟩ := h2
  refine ⟨d1 ++ d2, ?_, ?_⟩
  · rw [he2, he1, List.append_assoc]
  · rw [progOf_append]
    exact List.Sublist.append hp1 hp2

theorem ProgQ_mono {i j : List Nat} {s s' : St} (h : ProgQ i s s')
    (hij : List.Sublist i j) : ProgQ j s s' := by
  obtain ⟨d, he, hp⟩ := h
  exact ⟨d, he, hp.trans hij⟩

theorem ProgQ_of_events_eq {ideal : List Nat} {s s' : St}
    (h : s'.events = s.events) : ProgQ ideal s s' :=
  ⟨[], by simp [h], by simp [progOf]⟩

theorem prog_bind {α : Type} {f : α → St} {i1 i2 : List Nat} {s : St}
    {r : Except (Err × St) St} {g : St → Except (Err × St) α}
    (hr : ProgQ i1 s (exSt id r))
    (hg : ∀ s1, r = Except.ok s1 → ProgQ i2 s1 (exSt f (g s1))) :
    ProgQ (i1 ++ i2) s (exSt f (r >>= g)) := by
  cases r with
  | ok s1 =>
      show ProgQ (i1 ++ i2) s (exSt f (g s1))
      exact ProgQ_trans hr (hg s1 rfl)
  | error e =>
      exact ProgQ_mono hr (List.sublist_append_left i1 i2)

theorem updScan_prog {fu : Nat → Bool} {u : ScanUpdate} {s : St} :
    ProgQ (progOf [Event.updateScan u]) s (exSt id (updScan fu u s)) := by
  unfold updScan
  split
  · exact ProgQ_of_events_eq rfl
  · exact ⟨[Event.updateScan u], rfl, List.Sublist.refl _⟩

theorem progOf_creates (l : List Vuln) :
    progOf (l.map Event.createVulnerability) = [] := by
  induction l with
  | nil => rfl
  | cons v l ih => simpa [progOf, List.filterMap_cons] using ih

/-! ### Error classification of a clean-storage, ZAP-down run -/

theorem updScan_clean_ne_error {u : ScanUpdate} {s : St} {e : Err × St}
    (h : updScan (fun _ => false) u s = Except.error e) : False := by
  rw [updScan_clean] at h
  exact Except.noConfusion h

theorem smoothGo_err_cancel {a : Option Nat} {f t : Nat} :
    ∀ {l : List Nat} {s : St} {e : Err × St},
      smoothGo a (fun _ => false) f t l s = Except.error e → e.1 = Err.cancel := by
  intro l
  induction l with
  | nil =>
      intro s e h
      exact Except.noConfusion h
  | cons i rest ih =>
      intro s e h
      have h' : (do
          let s1 ← checkAbort a s
          let s2 ← updScan (fun _ => false) { progress := some (smoothVal f t i) } s1
          smoothGo a (fun _ => false) f t rest s2) = Except.error e := h
      rcases exbind_err_elim h' with hca | ⟨s1, _, h2⟩
      · exact (checkAbort_error hca).1
      · rcases exbind_err_elim h2 with hup | ⟨s2, _, h3⟩
        · exact absurd hup updScan_clean_ne_error
        · exact ih h3

theorem updateProgressSmooth_err_cancel {a : Option Nat} {f t : Nat} {s : St}
    {e : Err × St}
    (h : updateProgressSmooth a (fun _ => false) f t s = Except.error e) :
    e.1 = Err.cancel := by
  have h' : (do
      let s1 ← smoothGo a (fun _ => false) f t (List.range 21) s
      updScan (fun _ => false) { progress := some t } s1) = Except.error e := h
  rcases exbind_err_elim h' with hsm | ⟨s1, _, h2⟩
  · exact smoothGo_err_cancel hsm
  · exact absurd h2 updScan_clean_ne_error

theorem zapTryV1_err_cancel {env : EnvV1} {s : St} {e : Err × St}
    (hz : env.zapReady1 = false) (hf : env.failUpd = fun _ => false)
    (h : zapTryV1 env s = Except.error e) : e.1 = Err.cancel := by
  unfold zapTryV1 at h
  rw [hz, hf] at h
  split at h
  · have h' : (do
        let s1 ← updateProgressSmooth env.abortAt (fun _ => false) 45 90 s
        Except.ok (([] : List Vuln), s1)) = Except.error e := h
    rcases exbind_err_elim h' with hsm | ⟨s1, _, h2⟩
    · exact updateProgressSmooth_err_cancel hsm
    · exact Except.noConfusion h2
  · rename_i hcond
    exact absurd (by simp) hcond

theorem zapGuardedV1_err_cancel {env : EnvV1} {s : St} {e : Err × St}
    (hz : env.zapReady1 = false) (hf : env.failUpd = fun _ => false)
    (h : zapGuardedV1 env s = Except.error e) : e.1 = Err.cancel := by
  unfold zapGuardedV1 at h
  cases hzt : zapTryV1 env s with
  | ok r =>
      rw [hzt] at h
      exact Except.noConfusion h
  | error e0 =>
      obtain ⟨err0, es⟩ := e0
      cases err0 with
      | cancel =>
          rw [hzt] at h
          have h2 : (Except.error (Err.cancel, es) : Except (Err × St) (List Vuln × St)) =
            Except.error e := h
          rw [Except.error.injEq] at h2
          rw [← h2]
      | other =>
          exact absurd (zapTryV1_err_cancel hz hf hzt) (fun hc => Err.noConfusion hc)

theorem stage1V1_err_cancel {env : EnvV1} {tu : String} {s : St} {e : Err × St}
    (hf : env.failUpd = fun _ => false)
    (h : stage1V1 env tu s = Except.error e) : e.1 = Err.cancel := by
  unfold stage1V1 at h
  rw [hf] at h
  rcases exbind_err_elim h with hca | ⟨s1, _, h2⟩
  · exact (checkAbort_error hca).1
  · rcases exbind_err_elim h2 with hsm | ⟨s2, _, h3⟩
    · exact updateProgressSmooth_err_cancel hsm
    · cases hx : env.httpx with
      | none =>
          rw [hx] at h3
          exact Except.noConfusion h3
      | some r =>
          rw [hx] at h3
          dsimp only at h3
          split at h3
          · exact Except.noConfusion h3
          · exact Except.noConfusion h3

theorem stage2V1_err_cancel {env : EnvV1} {hn ty : String} {s : St} {e : Err × St}
    (hf : env.failUpd = fun _ => false)
    (h : stage2V1 env hn ty s = Except.error e) : e.1 = Err.cancel := by
  unfold stage2V1 at h
  rw [hf] at h
  rcases exbind_err_elim h with hca | ⟨s1, _, h2⟩
  · exact (checkAbort_error hca).1
  · split at h2
    · exact updateProgressSmooth_err_cancel h2
    · rcases exbind_err_elim h2 with hsm | ⟨s2, _, h3⟩
      · exact updateProgressSmooth_err_cancel hsm
      · cases hx : env.nmap with
        | none =>
            rw [hx] at h3
            exact Except.noConfusion h3
        | some r =>
            rw [hx] at h3
            dsimp only at h3
            split at h3
            · exact Except.noConfusion h3
            · exact Except.noConfusion h3

theorem stage3V1_err_cancel {env : EnvV1} {tu ty : String} {s : St} {e : Err × St}
    (hf : env.failUpd = fun _ => false)
    (h : stage3V1 env tu ty s = Except.error e) : e.1 = Err.cancel := by
  unfold stage3V1 at h
  rw [hf] at h
  rcases exbind_err_elim h with hca | ⟨s1, _, h2⟩
  · exact (checkAbort_error hca).1
  · split at h2
    · exact updateProgressSmooth_err_cancel h2
    · rcases exbind_err_elim h2 with hsm | ⟨s2, _, h3⟩
      · exact updateProgressSmooth_err_cancel hsm
      · cases hx : env.nikto with
        | none =>
            rw [hx] at h3
            exact Except.noConfusion h3
        | some r =>
            rw [hx] at h3
            dsimp only at h3
            exact Except.noConfusion h3

theorem stage4V1_err_cancel {env : EnvV1} {tu : String} {s : St} {e : Err × St}
    (hz : env.zapReady1 = false) (hf : env.failUpd = fun _ => false)
    (h : stage4V1 env tu s = Except.error e) : e.1 = Err.cancel := by
  unfold stage4V1 at h
  cases hca : checkAbort env.abortAt s with
  | error e0 =>
      rw [hca] at h
      have h2 : (Except.error e0 : Except (Err × St) St) = Except.error e := h
      rw [Except.error.injEq] at h2
      rw [← h2]
      exact (checkAbort_error hca).1
  | ok s1 =>
      rw [hca] at h
      dsimp only at h
      cases hzg : zapGuardedV1 env s1 with
      | ok r =>
          rw [hzg] at h
          exact Except.noConfusion h
      | error e0 =>
          rw [hzg] at h
          have h2 : (Except.error e0 : Except (Err × St) St) = Except.error e := h
          rw [Except.error.injEq] at h2
          rw [← h2]
          exact zapGuardedV1_err_cancel hz hf hzg

theorem finalizeV1_err_cancel {env : EnvV1} {s : St} {e : Err × St}
    (hf : env.failUpd = fun _ => false)
    (h : finalizeV1 env s = Except.error e) : e.1 = Err.cancel := by
  unfold finalizeV1 at h
  rw [hf] at h
  rcases exbind_err_elim h with hsm | ⟨s1, _, h2⟩
  · exact updateProgressSmooth_err_cancel hsm
  · rcases exbind_err_elim h2 with hup | ⟨s3, _, h3⟩
    · exact absurd hup updScan_clean_ne_error
    · exact Except.noConfusion h3

theorem tryBodyV1_err_cancel {env : EnvV1} {tu hn ty : String} {s : St} {e : Err × St}
    (hz : env.zapReady1 = false) (hf : env.failUpd = fun _ => false)
    (h : tryBodyV1 env tu hn ty s = Except.error e) : e.1 = Err.cancel := by
  unfold tryBodyV1 at h
  rw [hf] at h
  rcases exbind_err_elim h with h0 | ⟨s1, _, h⟩
  · exact absurd h0 updScan_clean_ne_error
  · rcases exbind_err_elim h with h1 | ⟨s2, _, h⟩
    · exact (checkAbort_error h1).1
    · rcases exbind_err_elim h with h2 | ⟨s3, _, h⟩
      · exact stage1V1_err_cancel hf h2
      · rcases exbind_err_elim h with h3 | ⟨s4, _, h⟩
        · exact stage2V1_err_cancel hf h3
        · rcases exbind_err_elim h with h4 | ⟨s5, _, h⟩
          · exact stage3V1_err_cancel hf h4
          · rcases exbind_err_elim h with h5 | ⟨s6, _, h⟩
            · exact stage4V1_err_cancel hz hf h5
            · exact finalizeV1_err_cancel hf h

theorem zapGuardedV1_prog {env : EnvV1} (s : St)
    (hz : env.zapReady1 = false) (hf : env.failUpd = fun _ => false) :
    ProgQ (smoothVals 45 90) s (exSt (fun r => r.2) (zapGuardedV1 env s)) := by
  have hi : zapIdealV1 env = smoothVals 45 90 := by
    rw [zapIdealV1, hz]
    simp
  unfold zapGuardedV1
  cases hzt : zapTryV1 env s with
  | ok r =>
      have h := zapTryV1_emits env s
      rw [hzt, hi] at h
      have h' : EmitsQ (smoothVals 45 90) s r.2 := h
      dsimp only
      exact ProgQ_of_EmitsQ h'
  | error e0 =>
      obtain ⟨err0, es⟩ := e0
      have h := zapTryV1_emits env s
      rw [hzt, hi] at h
      have h' : EmitsQ (smoothVals 45 90) s es := h
      cases err0 with
      | cancel =>
          dsimp only
          exact ProgQ_of_EmitsQ h'
      | other =>
          exact absurd (zapTryV1_err_cancel hz hf hzt) (fun hc => Err.noConfusion hc)

theorem stage4V1_prog {env : EnvV1} {tu : String} (s : St)
    (hz : env.zapReady1 = false) (hf : env.failUpd = fun _ => false) :
    ProgQ (smoothVals 45 90) s (exSt id (stage4V1 env tu s)) := by
  unfold stage4V1
  cases hca : checkAbort env.abortAt s with
  | error e =>
      dsimp only
      exact ProgQ_of_events_eq (checkAbort_error hca).2
  | ok s1 =>
      dsimp only
      have h0 : ProgQ ([] : List Nat) s s1 := ProgQ_of_events_eq (checkAbort_ok hca)
      have hg := zapGuardedV1_prog s1 hz hf
      cases hzg : zapGuardedV1 env s1 with
      | ok r =>
          rw [hzg] at hg
          have hg' : ProgQ (smoothVals 45 90) s1 r.2 := hg
          have htail : ProgQ ([] : List Nat) r.2 ((r.1.map (fun v =>
              if v.affectedUrl = "" then { v with affectedUrl := tu } else v)).foldl
                (fun s v => pushVuln v s) r.2) :=
            ProgQ_of_events_eq (foldl_pushVuln_events _ _)
          dsimp only
          exact ProgQ_mono (ProgQ_trans h0 (ProgQ_trans hg' htail)) (by simp)
      | error e =>
          rw [hzg] at hg
          have hg' : ProgQ (smoothVals 45 90) s1 e.2 := hg
          dsimp only
          exact ProgQ_mono (ProgQ_trans h0 hg') (by simp)


theorem exbind_ok_elim {α β : Type} {r : Except (Err × St) α}
    {f : α → Except (Err × St) β} {b : β}
    (h : r >>= f = Except.ok b) : ∃ a, r = Except.ok a ∧ f a = Except.ok b := by
  cases r with
  | ok a => exact ⟨a, rfl, h⟩
  | error e =>
      rw [exbind_error] at h
      exact Except.noConfusion h

theorem finalizeV1_prog {env : EnvV1} (s : St) :
    ProgQ (smoothVals 90 100 ++ [100]) s
      (exSt (fun r => r.2) (finalizeV1 env s)) := by
  unfold finalizeV1
  cases hsm : updateProgressSmooth env.abortAt env.failUpd 90 100 s with
  | error e =>
      have h := updateProgressSmooth_emits env.abortAt env.failUpd 90 100 s
      rw [hsm] at h
      have h' : EmitsQ (smoothVals 90 100) s e.2 := h
      exact ProgQ_mono (ProgQ_of_EmitsQ h') (List.sublist_append_left _ _)
  | ok s1 =>
      have p1 : ProgQ (smoothVals 90 100) s s1 := by
        have h := updateProgressSmooth_emits env.abortAt env.failUpd 90 100 s
        rw [hsm] at h
        exact ProgQ_of_EmitsQ h
      have p2 : ProgQ ([] : List Nat) s1
          ((deduplicateVulnerabilities s.vulns).1.foldl
            (fun s v => emit (Event.createVulnerability v) s) s1) :=
        ⟨(deduplicateVulnerabilities s.vulns).1.map Event.createVulnerability,
          foldl_emit_creates _ _, by rw [progOf_creates]⟩
      show ProgQ _ s (exSt (fun r => r.2)
        (updScan env.failUpd
          (errorUpdateV1 (deduplicateVulnerabilities s.vulns).1)
          ((deduplicateVulnerabilities s.vulns).1.foldl
            (fun s v => emit (Event.createVulnerability v) s) s1) >>=
          fun s3 => Except.ok ((deduplicateVulnerabilities s.vulns).1,
            emit Event.createReport s3)))
      refine ProgQ_mono (ProgQ_trans p1 (ProgQ_trans p2
        (prog_bind (ProgQ_mono updScan_prog (List.Sublist.refl [100]))
          (fun s3 _ => ⟨[Event.createReport], rfl, List.nil_sublist []⟩)))) ?_
      simp

/-- Progress writes an uncancelled-or-cancelled clean run can make, in
order: the initial 0, the five windows, and the terminal 100. -/
def idealV1Full : List Nat :=
  [0] ++ smoothVals 0 10 ++ smoothVals 10 30 ++ smoothVals 30 45 ++
    smoothVals 45 90 ++ (smoothVals 90 100 ++ [100])

theorem tryBodyV1_prog {env : EnvV1} {tu hn ty : String} (s : St)
    (hz : env.zapReady1 = false) (hf : env.failUpd = fun _ => false) :
    ProgQ idealV1Full s (exSt (fun r => r.2) (tryBodyV1 env tu hn ty s)) := by
  unfold tryBodyV1
  have h : ProgQ ([0] ++ ([] ++ (smoothVals 0 10 ++ (smoothVals 10 30 ++
      (smoothVals 30 45 ++ (smoothVals 45 90 ++ (smoothVals 90 100 ++ [100]))))))) s
      (exSt (fun r => r.2) (do
        let s ← updScan env.failUpd
          { status := some ScanStatus.running, progress := some 0 } s
        let s ← checkAbort env.abortAt s
        let s ← stage1V1 env tu s
        let s ← stage2V1 env hn ty s
        let s ← stage3V1 env tu ty s
        let s ← stage4V1 env tu s
        finalizeV1 env s)) := by
    refine prog_bind (ProgQ_mono updScan_prog (List.Sublist.refl [0])) (fun s1 _ => ?_)
    refine prog_bind (ProgQ_of_EmitsQ (checkAbort_emits env.abortAt s1)) (fun s2 _ => ?_)
    refine prog_bind (ProgQ_of_EmitsQ (stage1V1_emits env tu s2)) (fun s3 _ => ?_)
    refine prog_bind (ProgQ_of_EmitsQ (stage2V1_emits env hn ty s3)) (fun s4 _ => ?_)
    refine prog_bind (ProgQ_of_EmitsQ (stage3V1_emits env tu ty s4)) (fun s5 _ => ?_)
    refine prog_bind (stage4V1_prog s5 hz hf) (fun s6 _ => ?_)
    exact finalizeV1_prog s6
  exact ProgQ_mono h (by simp [idealV1Full])

theorem performScanV1_prog (env : EnvV1) (tu hn ty : String)
    (hz : env.zapReady1 = false) (hf : env.failUpd = fun _ => false) :
    List.Sublist (progOf (performScanV1 env tu hn ty).events) idealV1Full := by
  unfold performScanV1
  have hp := @tryBodyV1_prog env tu hn ty ⟨0, 0, [], []⟩ hz hf
  cases ht : tryBodyV1 env tu hn ty ⟨0, 0, [], []⟩ with
  | ok r =>
      obtain ⟨ded, s0⟩ := r
      rw [ht] at hp
      have hp' : ProgQ idealV1Full ⟨0, 0, [], []⟩ s0 := hp
      obtain ⟨Δ, he, hs⟩ := hp'
      have he0 : s0.events = Δ := by rw [he]; rfl
      dsimp only
      rw [he0]
      exact hs
  | error e =>
      obtain ⟨err, s0⟩ := e
      rw [ht] at hp
      have hp' : ProgQ idealV1Full ⟨0, 0, [], []⟩ s0 := hp
      obtain ⟨Δ, he, hs⟩ := hp'
      have he0 : s0.events = Δ := by rw [he]; rfl
      cases err with
      | other =>
          exact absurd (tryBodyV1_err_cancel hz hf ht) (fun hc => Err.noConfusion hc)
      | cancel =>
          dsimp only
          rw [hf, updScan_clean]
          dsimp only
          rw [progOf_append, progOf_upd_cancel, List.append_nil, he0]
          exact hs

theorem idealV1Full_chain :
    List.Chain' (fun a b : Nat => a ≤ b) idealV1Full :=
  (nondecreasing_iff_chain idealV1Full).mp (by decide)

theorem statusOf_final2 (d : List Vuln) :
    statusOf [Event.updateScan (errorUpdateV1 d), Event.createReport] =
      [ScanStatus.completed] := rfl

theorem progOf_final2 (d : List Vuln) :
    progOf [Event.updateScan (errorUpdateV1 d), Event.createReport] = [100] := rfl

theorem statusOf_upd_error (d : List Vuln) :
    statusOf [Event.updateScan (errorUpdateV1 d)] = [ScanStatus.completed] := rfl

theorem progOf_upd_error (d : List Vuln) :
    progOf [Event.updateScan (errorUpdateV1 d)] = [100] := rfl

theorem finalizeV1_ok {env : EnvV1} {s s' : St} {ded : List Vuln}
    (h : finalizeV1 env s = Except.ok (ded, s')) :
    ∃ pre, s'.events =
      pre ++ [Event.updateScan (errorUpdateV1 (deduplicateVulnerabilities s.vulns).1),
        Event.createReport] ∧ ded = (deduplicateVulnerabilities s.vulns).1 := by
  unfold finalizeV1 at h
  obtain ⟨s1, hsm, h2⟩ := exbind_ok_elim h
  obtain ⟨s3, hup, h3⟩ := exbind_ok_elim h2
  have h3' : (Except.ok ((deduplicateVulnerabilities s.vulns).1,
      emit Event.createReport s3) : Except (Err × St) (List Vuln × St)) =
      Except.ok (ded, s') := h3
  rw [Except.ok.injEq, Prod.mk.injEq] at h3'
  obtain ⟨hded, hs'⟩ := h3'
  have hup' : updScan env.failUpd
      (errorUpdateV1 (deduplicateVulnerabilities s.vulns).1)
      ((deduplicateVulnerabilities s.vulns).1.foldl
        (fun s v => emit (Event.createVulnerability v) s) s1) = Except.ok s3 := hup
  refine ⟨((deduplicateVulnerabilities s.vulns).1.foldl
    (fun s v => emit (Event.createVulnerability v) s) s1).events, ?_, hded.symm⟩
  rw [← hs']
  show s3.events ++ [Event.createReport] = _
  rw [updScan_ok hup']
  simp

theorem performScanV1_completed_at_100 (env : EnvV1) (tu hn ty : String)
    (h : (performScanV1 env tu hn ty).exit = RunExit.finished ∨
         (performScanV1 env tu hn ty).exit = RunExit.errorCaught) :
    lastStatusOf (performScanV1 env tu hn ty).events = some ScanStatus.completed ∧
    (progOf (performScanV1 env tu hn ty).events).getLast? = some 100 := by
  unfold performScanV1 at h ⊢
  cases ht : tryBodyV1 env tu hn ty ⟨0, 0, [], []⟩ with
  | ok r =>
      obtain ⟨ded, s0⟩ := r
      dsimp only
      unfold tryBodyV1 at ht
      obtain ⟨s1, _, ht⟩ := exbind_ok_elim ht
      obtain ⟨s2, _, ht⟩ := exbind_ok_elim ht
      obtain ⟨s3, _, ht⟩ := exbind_ok_elim ht
      obtain ⟨s4, _, ht⟩ := exbind_ok_elim ht
      obtain ⟨s5, _, ht⟩ := exbind_ok_elim ht
      obtain ⟨s6, _, hfin⟩ := exbind_ok_elim ht
      obtain ⟨pre, hev, _⟩ := finalizeV1_ok hfin
      constructor
      · rw [lastStatusOf, hev, statusOf_append, statusOf_final2]
        exact List.getLast?_concat _
      · rw [hev, progOf_append, progOf_final2]
        exact List.getLast?_concat _
  | error e =>
      obtain ⟨err, s0⟩ := e
      cases err with
      | cancel =>
          rw [ht] at h
          dsimp only at h
          cases hu : updScan env.failUpd cancelUpdateV1 s0 with
          | ok s1 =>
              rw [hu] at h
              dsimp only at h
              rcases h with h | h <;> exact absurd h (fun hc => RunExit.noConfusion hc)
          | error e2 =>
              rw [hu] at h
              dsimp only at h
              rcases h with h | h <;> exact absurd h (fun hc => RunExit.noConfusion hc)
      | other =>
          dsimp only
          cases hu : updScan env.failUpd
              (errorUpdateV1 (deduplicateVulnerabilities s0.vulns).1) s0 with
          | error e2 =>
              rw [ht] at h
              dsimp only at h
              rw [hu] at h
              dsimp only at h
              rcases h with h | h <;> exact absurd h (fun hc => RunExit.noConfusion hc)
          | ok s1 =>
              dsimp only
              constructor
              · rw [lastStatusOf, foldl_emit_creates, updScan_ok hu,
                  statusOf_append, statusOf_creates, List.append_nil,
                  statusOf_append, statusOf_upd_error]
                exact List.getLast?_concat _
              · rw [foldl_emit_creates, updScan_ok hu,
                  progOf_append, progOf_creates, List.append_nil,
                  progOf_append, progOf_upd_error]
                exact List.getLast?_concat _

/-- C5: what actually holds of progress in the part_000 variant.  (1) A run
that completes — normally or through the unexpected-error handler, which
also writes `completed` — has final status `completed` and its last progress
write is exactly 100.  (2) A cancelled run's terminal update carries no
progress value, so the record keeps the last progress reported before
cancellation.  (3) With the ZAP daemon down (no poll-loop recovery) and
reliable storage the progress writes of the whole run are non-decreasing,
cancelled runs included. -/
theorem C5_progress (env : EnvV1) (tu hn ty : String) :
    ((performScanV1 env tu hn ty).exit = RunExit.finished ∨
      (performScanV1 env tu hn ty).exit = RunExit.errorCaught →
      lastStatusOf (performScanV1 env tu hn ty).events = some ScanStatus.completed ∧
      (progOf (performScanV1 env tu hn ty).events).getLast? = some 100) ∧
    ((performScanV1 env tu hn ty).exit = RunExit.cancelledCaught →
      ∃ pre, (performScanV1 env tu hn ty).events =
          pre ++ [Event.updateScan cancelUpdateV1] ∧
        progOf (performScanV1 env tu hn ty).events = progOf pre ∧
        cancelUpdateV1.progress = none) ∧
    (env.zapReady1 = false → env.failUpd = (fun _ => false) →
      List.Chain' (fun a b : Nat => a ≤ b)
        (progOf (performScanV1 env tu hn ty).events)) := by
  refine ⟨performScanV1_completed_at_100 env tu hn ty, ?_, ?_⟩
  · intro h
    unfold performScanV1 at h ⊢
    cases ht : tryBodyV1 env tu hn ty ⟨0, 0, [], []⟩ with
    | ok r =>
        obtain ⟨ded, s0⟩ := r
        rw [ht] at h
        dsimp only at h
        exact absurd h (fun hc => RunExit.noConfusion hc)
    | error e =>
        obtain ⟨err, s0⟩ := e
        cases err with
        | other =>
            rw [ht] at h
            dsimp only at h
            cases hu : updScan env.failUpd
                (errorUpdateV1 (deduplicateVulnerabilities s0.vulns).1) s0 with
            | ok s1 =>
                rw [hu] at h
                dsimp only at h
                exact absurd h (fun hc => RunExit.noConfusion hc)
            | error e2 =>
                rw [hu] at h
                dsimp only at h
                exact absurd h (fun hc => RunExit.noConfusion hc)
        | cancel =>
            dsimp only
            cases hu : updScan env.failUpd cancelUpdateV1 s0 with
            | error e2 =>
                rw [ht] at h
                dsimp only at h
                rw [hu] at h
                dsimp only at h
                exact absurd h (fun hc => RunExit.noConfusion hc)
            | ok s1 =>
                dsimp only
                refine ⟨s0.events, updScan_ok hu, ?_, rfl⟩
                rw [updScan_ok hu, progOf_append, progOf_upd_cancel, List.append_nil]
  · intro hz hf
    exact idealV1Full_chain.sublist (performScanV1_prog env tu hn ty hz hf)

/-- A clean shallow run cancelled at abort-flag read 109: the check before
the last animated write of the 90→100 window, after `round(99.5) = 100` was
already written at step 19 of that window. -/
def envC5y : EnvV1 := { baseEnvV1 with abortAt := some 109 }

set_option maxRecDepth 400000 in
/-- C5 counterexample: (1) after a ZAP poll timeout the `zapError` guard
restarts the 45→90 window below the progress already reported, so the write
sequence 85, 45, … is not non-decreasing although the run completes; (2) a
run cancelled between the two final animated writes ends `cancelled` with
its last persisted progress equal to 100, refuting "progress = 100 only
when completed". -/
theorem C5_counterexample2 :
    ((performScanV1 envC5x "http://t" "t" "shallow").exit = RunExit.finished ∧
      ¬ List.Chain' (fun a b : Nat => a ≤ b)
        (progOf (performScanV1 envC5x "http://t" "t" "shallow").events)) ∧
    ((performScanV1 envC5y "http://t" "t" "shallow").exit = RunExit.cancelledCaught ∧
      lastStatusOf (performScanV1 envC5y "http://t" "t" "shallow").events =
        some ScanStatus.cancelled ∧
      (progOf (performScanV1 envC5y "http://t" "t" "shallow").events).getLast? =
        some 100) := by
  refine ⟨⟨by decide, ?_⟩, by decide, by decide, by decide⟩
  intro h
  have hnd := (nondecreasing_iff_chain
    (progOf (performScanV1 envC5x "http://t" "t" "shallow").events)).mpr h
  exact absurd hnd (by decide)

/-- A clean shallow run cancelled at the very first read, for the second
conjunct of the claim theorem. -/
def envC5w : EnvV1 := { baseEnvV1 with abortAt := some 0 }

set_option maxRecDepth 400000 in
theorem C5_witness :
    ((performScanV1 baseEnvV1 "http://t" "t" "shallow").exit = RunExit.finished ∨
      (performScanV1 baseEnvV1 "http://t" "t" "shallow").exit = RunExit.errorCaught) ∧
    (performScanV1 envC5w "http://t" "t" "shallow").exit = RunExit.cancelledCaught ∧
    baseEnvV1.zapReady1 = false ∧ baseEnvV1.failUpd = (fun _ => false) ∧
    envC5w.zapReady1 = false ∧ envC5w.failUpd = (fun _ => false) ∧
    (lastStatusOf (performScanV1 baseEnvV1 "http://t" "t" "shallow").events =
        some ScanStatus.completed ∧
      (progOf (performScanV1 baseEnvV1 "http://t" "t" "shallow").events).getLast? =
        some 100) ∧
    (∃ pre, (performScanV1 envC5w "http://t" "t" "shallow").events =
        pre ++ [Event.updateScan cancelUpdateV1] ∧
      progOf (performScanV1 envC5w "http://t" "t" "shallow").events = progOf pre ∧
      cancelUpdateV1.progress = none) ∧
    List.Chain' (fun a b : Nat => a ≤ b)
      (progOf (performScanV1 baseEnvV1 "http://t" "t" "shallow").events) ∧
    List.Chain' (fun a b : Nat => a ≤ b)
      (progOf (performScanV1 envC5w "http://t" "t" "shallow").events) :=
  ⟨Or.inl (by decide), by decide, rfl, rfl, rfl, rfl,
    (C5_progress baseEnvV1 "http://t" "t" "shallow").1 (Or.inl (by decide)),
    ((C5_progress envC5w "http://t" "t" "shallow").2.1 (by decide)),
    ((C5_progress baseEnvV1 "http://t" "t" "shallow").2.2 rfl rfl),
    ((C5_progress envC5w "http://t" "t" "shallow").2.2 rfl rfl)⟩
